import Mathlib

/-!
Lab9: turn-based combat simulator (src/Lab9/Lab9.cpp)

Shallow embedding of the classes `Character`, `Monster` (with its presets
`Goblin`, `Dragon`, `Skeleton`) and `Game` of `Lab9.cpp`.

Modelling conventions.

* C++ `int` fields are Lean `Int`, meant to hold a value in the range of a
  32-bit `int` (`inIntRange`). Every arithmetic operation that the source does
  on `int` is followed by `wrapInt`, the two's complement wrap-around to that
  range. Signed overflow is undefined behaviour in C++; the wrap-around is what
  the usual builds do, and it is the identity on every result that does not
  overflow.
* A member function that mutates `*this` (or a reference argument) and may
  then `throw std::runtime_error` returns the mutated objects together with
  `Option String`: `none` for a normal return, `some msg` for a throw whose
  `what()` is `msg`. The mutation done before the throw stays visible, as it
  does in C++.
* `Logger<std::string>` is the list of lines appended to `game_log.txt`.
  Console output (`std::cout`, `std::cerr`) is not part of the state.
* The `while` loop of `Game::fight` is a function with fuel (an upper bound on
  the number of iterations); it returns `none` when the fuel does not suffice.
-/

namespace Lab9

/-! ## Machine integers -/

/-- Range of a C++ `int` (32 bits), the type of the numeric fields. -/
def inIntRange (x : Int) : Prop := -2147483648 ≤ x ∧ x ≤ 2147483647

instance (x : Int) : Decidable (inIntRange x) := by
  unfold inIntRange
  infer_instance

/-- Result of an `int` operation whose exact value is `x`: the value of the
same residue modulo `2 ^ 32` in the range of `int`. -/
def wrapInt (x : Int) : Int := (x + 2147483648) % 4294967296 - 2147483648

/-! ## Character -/

/-- Fields of `class Character` (lines 27-34). -/
structure Character where
  name : String
  health : Int
  attack : Int
  defense : Int
  level : Int
  experience : Int
deriving DecidableEq, Repr

/-- Constructor `Character(n, h, a, d)` (lines 36-38): level 1, experience 0. -/
def Character.new (n : String) (h a d : Int) : Character :=
  { name := n, health := h, attack := a, defense := d, level := 1, experience := 0 }

/-- Method `Character::heal` (lines 42-46). -/
def Character.heal (c : Character) (amount : Int) : Character :=
  let c1 := { c with health := wrapInt (c.health + amount) }
  if c1.health > 100 then { c1 with health := 100 } else c1

/-- Method `Character::gainExperience` (lines 48-55): a single `if`. -/
def Character.gainExperience (c : Character) (exp : Int) : Character :=
  let c1 := { c with experience := wrapInt (c.experience + exp) }
  if c1.experience ≥ 100 then
    { c1 with level := wrapInt (c1.level + 1), experience := wrapInt (c1.experience - 100) }
  else c1

/-- Method `Character::takeDamage` (lines 65-68): the health is lowered first,
then the method throws when the new health is negative. -/
def Character.takeDamage (c : Character) (dmg : Int) : Character × Option String :=
  let c1 := { c with health := wrapInt (c.health - dmg) }
  if c1.health < 0 then (c1, some (c1.name ++ " has died!")) else (c1, none)

/-! ## Monster -/

/-- Fields of `class Monster` (lines 75-80). -/
structure Monster where
  name : String
  health : Int
  attack : Int
  defense : Int
deriving DecidableEq, Repr

/-- Constructor `Monster(n, h, a, d)` (lines 82-84). -/
def Monster.new (n : String) (h a d : Int) : Monster :=
  { name := n, health := h, attack := a, defense := d }

/-- Method `Monster::takeDamage` (lines 95-98). -/
def Monster.takeDamage (m : Monster) (dmg : Int) : Monster × Option String :=
  let m1 := { m with health := wrapInt (m.health - dmg) }
  if m1.health < 0 then (m1, some (m1.name ++ " has been defeated!")) else (m1, none)

/-- Preset `Goblin()` (lines 102-105). -/
def Goblin : Monster := Monster.new "Goblin" 50 10 5

/-- Preset `Dragon()` (lines 108-111). -/
def Dragon : Monster := Monster.new "Dragon" 150 30 15

/-- Preset `Skeleton()` (lines 114-117). -/
def Skeleton : Monster := Monster.new "Skeleton" 70 15 8

/-! ## Attacks -/

/-- Objects reachable from one attack: the player, the monster and the log
file, with the `what()` of the exception in flight, if any. -/
structure AttackResult where
  player : Character
  monster : Monster
  logger : List String
  thrown : Option String
deriving DecidableEq, Repr

/-- Method `Character::attackEnemy` (lines 212-222). The log line is written
after `enemy.takeDamage` returns, so a throwing `takeDamage` writes none. -/
def Character.attackEnemy (c : Character) (enemy : Monster) (logger : List String) :
    AttackResult :=
  let damage := wrapInt (c.attack - enemy.defense)
  if damage > 0 then
    match enemy.takeDamage damage with
    | (e1, some msg) => { player := c, monster := e1, logger := logger, thrown := some msg }
    | (e1, none) =>
      { player := c, monster := e1,
        logger := logger ++
          [c.name ++ " attacks " ++ e1.name ++ " for " ++ toString damage ++ " damage!"],
        thrown := none }
  else
    { player := c, monster := enemy, logger := logger, thrown := none }

/-- The monster's counter-attack, lines 171-180 of `Game::fight` (the block
inside `if (monster->getHealth() > 0)`). -/
def counterAttack (player : Character) (monster : Monster) (logger : List String) :
    AttackResult :=
  let damage := wrapInt (monster.attack - player.defense)
  if damage > 0 then
    match player.takeDamage damage with
    | (p1, some msg) => { player := p1, monster := monster, logger := logger, thrown := some msg }
    | (p1, none) =>
      { player := p1, monster := monster,
        logger := logger ++
          [monster.name ++ " attacks " ++ p1.name ++ " for " ++ toString damage ++ " damage!"],
        thrown := none }
  else
    { player := player, monster := monster, logger := logger, thrown := none }

/-! ## Game -/

/-- Fields of `class Game` (lines 148-152). -/
structure Game where
  player : Character
  inventory : List String
  logger : List String
deriving DecidableEq, Repr

/-- Constructor `Game(playerName)` (lines 155-157), on an existing log file
whose lines are `logger`. -/
def Game.new (playerName : String) (logger : List String) : Game :=
  { player := Character.new playerName 100 20 10, inventory := [], logger := logger }

/-- State of the battle loop of `Game::fight`. The two counters are ghost
fields: the number of calls of `attackEnemy` and the number of executions of
the counter-attack block so far. -/
structure Battle where
  player : Character
  monster : Monster
  logger : List String
  playerAttacks : Nat
  monsterAttacks : Nat
deriving DecidableEq, Repr

/-- Loop condition of line 168. -/
def Battle.ongoing (b : Battle) : Bool :=
  decide (b.monster.health > 0) && decide (b.player.health > 0)

/-- One iteration of the loop body, lines 169-181: the battle state after it
and the exception that left it, if any. -/
def round (b : Battle) : Battle × Option String :=
  let r1 := b.player.attackEnemy b.monster b.logger
  let b1 : Battle :=
    { player := r1.player, monster := r1.monster, logger := r1.logger,
      playerAttacks := b.playerAttacks + 1, monsterAttacks := b.monsterAttacks }
  match r1.thrown with
  | some msg => (b1, some msg)
  | none =>
    if b1.monster.health > 0 then
      let r2 := counterAttack b1.player b1.monster b1.logger
      ({ player := r2.player, monster := r2.monster, logger := r2.logger,
         playerAttacks := b1.playerAttacks, monsterAttacks := b1.monsterAttacks + 1 },
       r2.thrown)
    else (b1, none)

/-- The `while` loop of lines 168-182 with at most `fuel` iterations. -/
def fightLoop : Nat → Battle → Option (Battle × Option String)
  | fuel, b =>
    if b.ongoing then
      match fuel with
      | 0 => none
      | n + 1 =>
        match round b with
        | (b1, some msg) => some (b1, some msg)
        | (b1, none) => fightLoop n b1
    else some (b, none)

/-- What `Game::fight` leaves behind: the game, the monster as it was when the
`unique_ptr` went out of scope, the message of the exception caught at line
185 (if one was thrown), and the ghost counters of the loop. -/
structure FightResult where
  game : Game
  monster : Monster
  caught : Option String
  playerAttacks : Nat
  monsterAttacks : Nat
deriving DecidableEq, Repr

/-- Method `Game::fight` (lines 165-188). `gainExperience(50)` at line 183 is
inside the `try` block, after the loop: it runs only when the loop is left
without an exception. -/
def Game.fight (fuel : Nat) (g : Game) (monster : Monster) : Option FightResult :=
  match fightLoop fuel { player := g.player, monster := monster, logger := g.logger,
                         playerAttacks := 0, monsterAttacks := 0 } with
  | none => none
  | some (b, some msg) =>
    some { game := { g with player := b.player, logger := b.logger },
           monster := b.monster, caught := some msg,
           playerAttacks := b.playerAttacks, monsterAttacks := b.monsterAttacks }
  | some (b, none) =>
    some { game := { g with player := b.player.gainExperience 50, logger := b.logger },
           monster := b.monster, caught := none,
           playerAttacks := b.playerAttacks, monsterAttacks := b.monsterAttacks }

/-- Specification reading of experience gain (spec section 3, "may level up
multiple times"): `while experience >= 100: level += 1, experience -= 100`
applied to the accumulated experience, in closed form for a non-negative
total. Used only to compare with `Character.gainExperience`. -/
def gainExperienceLoopSpec (c : Character) (exp : Int) : Character :=
  { c with level := c.level + (c.experience + exp) / 100,
           experience := (c.experience + exp) % 100 }

/-! ## Persistence

`Game::saveGame` and `Game::loadGame` use the stream operators of the C++
standard library. They are modelled on text: a file is the string of its
characters, `operator<<` on an `int` writes its decimal representation (a
leading `-` for a negative value), and `operator>>` skips leading white space
and then reads one field, as described at `IStream.extractString` and
`IStream.extractInt`. -/

/-- Function `std::isspace` in the "C" locale: the space and the characters
9 to 13 (tab, line feed, vertical tab, form feed, carriage return). -/
def isSpace (c : Char) : Bool :=
  decide (c.toNat = 32) || (decide (9 ≤ c.toNat) && decide (c.toNat ≤ 13))

/-- An input file stream: the characters not read yet and the fail bit. -/
structure IStream where
  buf : List Char
  failed : Bool
deriving DecidableEq, Repr

/-- Extraction `stream >> str` for a `std::string` that holds `old`. On a
failed stream nothing happens. Otherwise leading white space is skipped; at
the end of the file the extraction fails and leaves the string alone;
otherwise the string becomes the characters up to the next white space. -/
def IStream.extractString (s : IStream) (old : String) : String × IStream :=
  if s.failed then (old, s)
  else
    let cs := s.buf.dropWhile isSpace
    if cs.isEmpty then (old, { buf := [], failed := true })
    else
      (String.mk (cs.takeWhile fun c => !isSpace c),
       { buf := cs.dropWhile fun c => !isSpace c, failed := false })

/-- Decimal digits `0` to `9` (character codes 48 to 57). -/
def isDecDigit (c : Char) : Bool :=
  decide (48 ≤ c.toNat) && decide (c.toNat ≤ 57)

/-- Value of a sequence of decimal digits. -/
def digitsValue (ds : List Char) : Nat :=
  ds.foldl (fun acc c => 10 * acc + (c.toNat - 48)) 0

/-- Extraction `stream >> x` for an `int` that holds `old`. On a failed stream
nothing happens. Otherwise leading white space is skipped; at the end of the
file the extraction fails and leaves `x` alone. Otherwise an optional sign and
the longest run of decimal digits are read. Without a digit the extraction
fails and stores 0; a value outside the range of `int` fails and stores the
nearest bound; otherwise the value is stored. -/
def IStream.extractInt (s : IStream) (old : Int) : Int × IStream :=
  if s.failed then (old, s)
  else
    let cs := s.buf.dropWhile isSpace
    if cs.isEmpty then (old, { buf := [], failed := true })
    else
      let neg := decide (cs.head? = some '-')
      let signed := neg || decide (cs.head? = some '+')
      let cs1 := if signed then cs.tail else cs
      let ds := cs1.takeWhile isDecDigit
      let rest := cs1.dropWhile isDecDigit
      if ds.isEmpty then (0, { buf := rest, failed := true })
      else
        let v : Int := if neg then -(digitsValue ds : Int) else (digitsValue ds : Int)
        if v > 2147483647 then (2147483647, { buf := rest, failed := true })
        else if v < -2147483648 then (-2147483648, { buf := rest, failed := true })
        else (v, { buf := rest, failed := false })

/-- Method `Game::saveGame` (lines 190-198): the text written to the file, or
the exception of line 192 when the file cannot be opened for writing
(`canOpen = false`). -/
def Game.saveGame (g : Game) (canOpen : Bool) : Except String String :=
  if canOpen then
    .ok (g.player.name ++ " " ++ toString g.player.health ++ " " ++
      toString g.player.attack ++ " " ++ toString g.player.defense ++ "\n")
  else .error "Failed to save game."

/-- Method `Game::loadGame` (lines 200-208). `file` is the content of the file,
`none` when it cannot be opened (the exception of line 202). The locals `hp`,
`atk` and `def` are not initialised in the source: `hp0`, `atk0` and `def0`
stand for the values they happen to hold, which are what is used when an
extraction on a failed stream leaves them alone. Line 206 replaces the player
by a newly constructed `Character`. -/
def Game.loadGame (g : Game) (file : Option String) (hp0 atk0 def0 : Int) :
    Except String Game :=
  match file with
  | none => .error "Failed to load game."
  | some text =>
    let s0 : IStream := { buf := text.data, failed := false }
    let r1 := s0.extractString ""
    let r2 := r1.2.extractInt hp0
    let r3 := r2.2.extractInt atk0
    let r4 := r3.2.extractInt def0
    .ok { g with player := Character.new r1.1 r2.1 r3.1 r4.1 }

/-! ## Specification of the event log -/

/-- Specification reading of a log line (spec section 6): "X attacks Y for N
damage!". -/
def attackLineSpec (attacker defender : String) (damage : Int) : String :=
  attacker ++ " attacks " ++ defender ++ " for " ++ toString damage ++ " damage!"

/-- Specification reading of the lines that one round entered in state `b`
adds to the event log, in order: first the player's line, when the player's
net damage is positive and the attack does not defeat the monster; then the
monster's line, when the counter-attack is made (the monster's health after
the player's attack is above zero), its net damage is positive and it does not
defeat the player. Used only to compare with the log written by `round`. -/
def roundLinesSpec (b : Battle) : List String :=
  let d1 := wrapInt (b.player.attack - b.monster.defense)
  let h1 := if d1 > 0 then wrapInt (b.monster.health - d1) else b.monster.health
  let d2 := wrapInt (b.monster.attack - b.player.defense)
  (if d1 > 0 ∧ 0 ≤ h1 then [attackLineSpec b.player.name b.monster.name d1] else []) ++
  (if h1 > 0 ∧ d2 > 0 ∧ 0 ≤ wrapInt (b.player.health - d2) then
    [attackLineSpec b.monster.name b.player.name d2] else [])

/-- Specification reading of the lines that the rounds of a fight add to the
event log: the lines of each round played, in the order of the rounds, up to
the round that ends the fight. Used only to compare with the log written by
`fightLoop`. -/
def fightLinesSpec : Nat → Battle → List String
  | 0, _ => []
  | n + 1, b =>
    if b.ongoing then
      roundLinesSpec b ++
        (match round b with
         | (_, some _) => []
         | (b1, none) => fightLinesSpec n b1)
    else []


/-! ## Wrap-around of machine integers -/

theorem wrapInt_inIntRange (x : Int) : inIntRange (wrapInt x) := by
  unfold inIntRange wrapInt
  omega

theorem wrapInt_eq_self (x : Int) (h : inIntRange x) : wrapInt x = x := by
  unfold inIntRange at h
  unfold wrapInt
  omega

/-- Lowering a positive value by a positive `int` amount never wraps upwards. -/
theorem wrapInt_sub_lt (h d : Int) (hh : 0 < h) (hd : 0 < wrapInt d) :
    wrapInt (h - wrapInt d) < h := by
  unfold wrapInt at hd ⊢
  omega

/-! ## Basic facts about single attacks -/

theorem monster_takeDamage_fst (m : Monster) (d : Int) :
    (m.takeDamage d).1 = { m with health := wrapInt (m.health - d) } := by
  simp only [Monster.takeDamage]
  split_ifs <;> rfl

theorem monster_takeDamage_snd (m : Monster) (d : Int) :
    (m.takeDamage d).2 =
      if wrapInt (m.health - d) < 0 then some (m.name ++ " has been defeated!") else none := by
  simp only [Monster.takeDamage]
  split_ifs <;> rfl

theorem character_takeDamage_fst (c : Character) (d : Int) :
    (c.takeDamage d).1 = { c with health := wrapInt (c.health - d) } := by
  simp only [Character.takeDamage]
  split_ifs <;> rfl

theorem character_takeDamage_snd (c : Character) (d : Int) :
    (c.takeDamage d).2 =
      if wrapInt (c.health - d) < 0 then some (c.name ++ " has died!") else none := by
  simp only [Character.takeDamage]
  split_ifs <;> rfl

theorem attackEnemy_player (c : Character) (m : Monster) (lg : List String) :
    (c.attackEnemy m lg).player = c := by
  simp only [Character.attackEnemy, Monster.takeDamage]
  split_ifs <;> rfl

theorem attackEnemy_monster (c : Character) (m : Monster) (lg : List String) :
    (c.attackEnemy m lg).monster =
      if wrapInt (c.attack - m.defense) > 0 then
        { m with health := wrapInt (m.health - wrapInt (c.attack - m.defense)) }
      else m := by
  simp only [Character.attackEnemy, Monster.takeDamage]
  split_ifs <;> rfl

theorem attackEnemy_thrown (c : Character) (m : Monster) (lg : List String) :
    (c.attackEnemy m lg).thrown =
      if wrapInt (c.attack - m.defense) > 0 ∧
          wrapInt (m.health - wrapInt (c.attack - m.defense)) < 0 then
        some (m.name ++ " has been defeated!") else none := by
  simp only [Character.attackEnemy, Monster.takeDamage]
  split_ifs <;> first | rfl | (exfalso; tauto)

theorem counterAttack_monster (c : Character) (m : Monster) (lg : List String) :
    (counterAttack c m lg).monster = m := by
  simp only [counterAttack, Character.takeDamage]
  split_ifs <;> rfl

theorem counterAttack_player (c : Character) (m : Monster) (lg : List String) :
    (counterAttack c m lg).player =
      if wrapInt (m.attack - c.defense) > 0 then
        { c with health := wrapInt (c.health - wrapInt (m.attack - c.defense)) }
      else c := by
  simp only [counterAttack, Character.takeDamage]
  split_ifs <;> rfl

theorem counterAttack_thrown (c : Character) (m : Monster) (lg : List String) :
    (counterAttack c m lg).thrown =
      if wrapInt (m.attack - c.defense) > 0 ∧
          wrapInt (c.health - wrapInt (m.attack - c.defense)) < 0 then
        some (c.name ++ " has died!") else none := by
  simp only [counterAttack, Character.takeDamage]
  split_ifs <;> first | rfl | (exfalso; tauto)

/-! ## One round of the battle loop -/

theorem round_monster (b : Battle) :
    (round b).1.monster = (b.player.attackEnemy b.monster b.logger).monster := by
  simp only [round]
  split
  · rfl
  · split_ifs
    · simp only [counterAttack_monster]
    · rfl

theorem round_monster_frame (b : Battle) :
    (round b).1.monster.name = b.monster.name ∧
    (round b).1.monster.attack = b.monster.attack ∧
    (round b).1.monster.defense = b.monster.defense := by
  rw [round_monster, attackEnemy_monster]
  split_ifs <;> exact ⟨rfl, rfl, rfl⟩

/-- In a round entered with the monster's health above zero, the monster's
health does not rise, and it falls when the player's net damage is positive. -/
theorem round_monster_health (b : Battle) (hm : b.monster.health > 0) :
    (round b).1.monster.health ≤ b.monster.health ∧
    (wrapInt (b.player.attack - b.monster.defense) > 0 →
      (round b).1.monster.health < b.monster.health) := by
  rw [round_monster, attackEnemy_monster]
  split_ifs with h
  · have := wrapInt_sub_lt b.monster.health (b.player.attack - b.monster.defense) hm h
    exact ⟨le_of_lt this, fun _ => this⟩
  · exact ⟨le_refl _, fun h2 => absurd h2 h⟩

theorem round_player_frame (b : Battle) :
    (round b).1.player.name = b.player.name ∧
    (round b).1.player.attack = b.player.attack ∧
    (round b).1.player.defense = b.player.defense ∧
    (round b).1.player.level = b.player.level ∧
    (round b).1.player.experience = b.player.experience := by
  simp only [round]
  split
  · simp only [attackEnemy_player, and_self]
  · split_ifs
    · simp only [counterAttack_player, attackEnemy_player]
      split_ifs <;> simp only [and_self]
    · simp only [attackEnemy_player, and_self]

/-- In a round entered with the player's health above zero, the player's
health does not rise. -/
theorem round_player_health_le (b : Battle) (hp : b.player.health > 0) :
    (round b).1.player.health ≤ b.player.health := by
  simp only [round]
  split
  · simp only [attackEnemy_player, le_refl]
  · split_ifs
    · simp only [counterAttack_player, attackEnemy_player]
      split_ifs with h
      · exact le_of_lt (wrapInt_sub_lt b.player.health _ hp h)
      · exact le_refl _
    · simp only [attackEnemy_player, le_refl]

/-- A round that throws with the player's health negative afterwards, entered
with the player's health non-negative, was left by `Character::takeDamage`. -/
theorem round_thrown_died (b b1 : Battle) (msg : String) (h0 : 0 ≤ b.player.health)
    (hr : round b = (b1, some msg)) (hneg : b1.player.health < 0) :
    msg = b.player.name ++ " has died!" := by
  simp only [round] at hr
  split at hr
  · simp only [Prod.mk.injEq, attackEnemy_player] at hr
    obtain ⟨hb, -⟩ := hr
    subst hb
    simp only at hneg
    omega
  · split_ifs at hr
    · simp only [Prod.mk.injEq, counterAttack_thrown, attackEnemy_player] at hr
      obtain ⟨-, hm⟩ := hr
      split_ifs at hm
      simpa using hm.symm
    · simp at hr

/-- A round that ends without an exception leaves the player's health
non-negative when it was so before. -/
theorem round_normal_nonneg (b b1 : Battle) (h0 : 0 ≤ b.player.health)
    (hr : round b = (b1, none)) : 0 ≤ b1.player.health := by
  simp only [round] at hr
  split at hr
  · simp at hr
  · split_ifs at hr
    · simp only [Prod.mk.injEq, counterAttack_thrown, counterAttack_player, attackEnemy_player]
        at hr
      obtain ⟨hb, hm⟩ := hr
      subst hb
      simp only
      split_ifs at hm with hc
      split_ifs with h2
      · by_contra h4
        exact hc ⟨h2, by simpa using h4⟩
      · exact h0
    · simp only [Prod.mk.injEq, attackEnemy_player, and_true] at hr
      subst hr
      simpa using h0

/-! ## The battle loop -/

theorem fightLoop_stop (fuel : Nat) (b : Battle) (h : b.ongoing = false) :
    fightLoop fuel b = some (b, none) := by
  unfold fightLoop
  simp [h]

theorem fightLoop_zero (b : Battle) (h : b.ongoing = true) : fightLoop 0 b = none := by
  unfold fightLoop
  simp [h]

theorem fightLoop_succ (n : Nat) (b : Battle) (h : b.ongoing = true) :
    fightLoop (n + 1) b =
      match round b with
      | (b1, some msg) => some (b1, some msg)
      | (b1, none) => fightLoop n b1 := by
  rw [fightLoop]
  simp [h]

/-- Loop rule: an invariant kept by every round that returns normally, and a
postcondition established when the loop condition fails or a round throws. -/
theorem fightLoop_rule (Inv : Battle → Prop) (Post : Battle × Option String → Prop)
    (hstop : ∀ b, Inv b → b.ongoing = false → Post (b, none))
    (hthrow : ∀ b b1 msg, Inv b → b.ongoing = true → round b = (b1, some msg) →
      Post (b1, some msg))
    (hstep : ∀ b b1, Inv b → b.ongoing = true → round b = (b1, none) → Inv b1) :
    ∀ (fuel : Nat) (b : Battle) (r : Battle × Option String),
      Inv b → fightLoop fuel b = some r → Post r := by
  intro fuel
  induction fuel with
  | zero =>
    intro b r hi hr
    cases hb : b.ongoing with
    | true => rw [fightLoop_zero b hb] at hr; cases hr
    | false =>
      rw [fightLoop_stop 0 b hb] at hr
      cases hr
      exact hstop b hi hb
  | succ n ih =>
    intro b r hi hr
    cases hb : b.ongoing with
    | false =>
      rw [fightLoop_stop (n + 1) b hb] at hr
      cases hr
      exact hstop b hi hb
    | true =>
      rw [fightLoop_succ n b hb] at hr
      rcases hrd : round b with ⟨b1, _ | msg⟩
      · rw [hrd] at hr
        exact ih b1 r (hstep b b1 hi hb hrd) hr
      · rw [hrd] at hr
        cases hr
        exact hthrow b b1 msg hi hb hrd

/-- More fuel does not change the outcome of a loop that already ended. -/
theorem fightLoop_mono (k : Nat) :
    ∀ (fuel : Nat) (b : Battle) (r : Battle × Option String),
      fightLoop fuel b = some r → fightLoop (fuel + k) b = some r := by
  intro fuel
  induction fuel with
  | zero =>
    intro b r hr
    cases hb : b.ongoing with
    | true => rw [fightLoop_zero b hb] at hr; cases hr
    | false =>
      rw [fightLoop_stop 0 b hb] at hr
      rw [fightLoop_stop (0 + k) b hb]
      exact hr
  | succ n ih =>
    intro b r hr
    cases hb : b.ongoing with
    | false =>
      rw [fightLoop_stop (n + 1) b hb] at hr
      rw [fightLoop_stop (n + 1 + k) b hb]
      exact hr
    | true =>
      rw [fightLoop_succ n b hb] at hr
      rw [show n + 1 + k = (n + k) + 1 by omega, fightLoop_succ (n + k) b hb]
      rcases hrd : round b with ⟨b1, _ | msg⟩
      · rw [hrd] at hr
        exact ih b1 r hr
      · rw [hrd] at hr
        exact hr

/-- The outcome of the loop does not depend on the fuel, once it suffices. -/
theorem fightLoop_det (f1 f2 : Nat) (b : Battle) (r1 r2 : Battle × Option String)
    (h1 : fightLoop f1 b = some r1) (h2 : fightLoop f2 b = some r2) : r1 = r2 := by
  have e1 := fightLoop_mono f2 f1 b r1 h1
  have e2 := fightLoop_mono f1 f2 b r2 h2
  rw [Nat.add_comm] at e2
  rw [e1] at e2
  exact Option.some.inj e2

/-- In a round that ends without an exception and with the monster's health
above zero, the counter-attack was made. -/
theorem round_normal_player (b b1 : Battle) (hr : round b = (b1, none))
    (hm : b1.monster.health > 0) :
    b1.player = (counterAttack b.player b1.monster b.logger).player := by
  simp only [round] at hr
  split at hr
  · simp at hr
  · split_ifs at hr
    · simp only [Prod.mk.injEq, attackEnemy_player] at hr
      obtain ⟨hb, -⟩ := hr
      subst hb
      simp only [counterAttack_player, counterAttack_monster]
    · rename_i hle
      simp only [Prod.mk.injEq, and_true] at hr
      subst hr
      exact absurd hm hle

theorem fightLoop_terminates_player (n : Nat) :
    ∀ b : Battle, wrapInt (b.player.attack - b.monster.defense) > 0 → b.monster.health ≤ n →
      (fightLoop n b).isSome = true := by
  induction n with
  | zero =>
    intro b _ hh
    rw [fightLoop_stop 0 b (by simp [Battle.ongoing]; intro h; omega)]
    rfl
  | succ n ih =>
    intro b hd hh
    cases hb : b.ongoing with
    | false => rw [fightLoop_stop _ b hb]; rfl
    | true =>
      rw [fightLoop_succ n b hb]
      have hpos : b.monster.health > 0 := by
        simp only [Battle.ongoing, Bool.and_eq_true, decide_eq_true_eq] at hb
        exact hb.1
      have hm := (round_monster_health b hpos).2 hd
      have hmf := round_monster_frame b
      have hp := round_player_frame b
      rcases hrd : round b with ⟨b1, _ | msg⟩
      · rw [hrd] at hm hp hmf
        simp only at hm hp hmf ⊢
        apply ih b1
        · rw [hp.2.1, hmf.2.2]; exact hd
        · push_cast at hh
          omega
      · rfl

theorem fightLoop_terminates_monster (n : Nat) :
    ∀ b : Battle, wrapInt (b.monster.attack - b.player.defense) > 0 → b.player.health ≤ n →
      (fightLoop n b).isSome = true := by
  induction n with
  | zero =>
    intro b _ hh
    rw [fightLoop_stop 0 b (by simp [Battle.ongoing]; intro _; omega)]
    rfl
  | succ n ih =>
    intro b hd hh
    cases hb : b.ongoing with
    | false => rw [fightLoop_stop _ b hb]; rfl
    | true =>
      rw [fightLoop_succ n b hb]
      have hpos : b.player.health > 0 := by
        simp only [Battle.ongoing, Bool.and_eq_true, decide_eq_true_eq] at hb
        exact hb.2
      have hmf := round_monster_frame b
      have hp := round_player_frame b
      rcases hrd : round b with ⟨b1, _ | msg⟩
      · rw [hrd] at hp hmf
        simp only at hp hmf ⊢
        rcases le_or_lt b1.monster.health 0 with h0 | h0
        · rw [fightLoop_stop n b1 (by simp [Battle.ongoing]; intro h; omega)]
          rfl
        · apply ih b1
          · rw [hp.2.2.1, hmf.2.1]; exact hd
          · have hpl := round_normal_player b b1 hrd h0
            rw [hpl, counterAttack_player, hmf.2.1, if_pos hd]
            have := wrapInt_sub_lt b.player.health (b.monster.attack - b.player.defense) hpos hd
            simp only
            push_cast at hh
            omega
      · rfl

/-! ## Game::fight -/

/-- Line 183 and the `catch` of lines 185-187, applied to what the loop left. -/
theorem fight_eq (fuel : Nat) (g : Game) (m : Monster) :
    g.fight fuel m =
      (fightLoop fuel { player := g.player, monster := m, logger := g.logger,
                        playerAttacks := 0, monsterAttacks := 0 }).map
        (fun r : Battle × Option String =>
          { game :=
              { g with
                player := if r.2.isSome then r.1.player else r.1.player.gainExperience 50,
                logger := r.1.logger },
            monster := r.1.monster, caught := r.2,
            playerAttacks := r.1.playerAttacks, monsterAttacks := r.1.monsterAttacks }) := by
  unfold Game.fight
  rcases fightLoop fuel _ with _ | ⟨b, _ | msg⟩ <;> rfl

theorem fight_mono (fuel k : Nat) (g : Game) (m : Monster) (r : FightResult)
    (h : g.fight fuel m = some r) : g.fight (fuel + k) m = some r := by
  rw [fight_eq] at h ⊢
  rcases hl : fightLoop fuel _ with _ | x
  · rw [hl] at h; cases h
  · rw [hl] at h
    rw [fightLoop_mono k fuel _ x hl]
    exact h

theorem fight_det (f1 f2 : Nat) (g : Game) (m : Monster) (r1 r2 : FightResult)
    (h1 : g.fight f1 m = some r1) (h2 : g.fight f2 m = some r2) : r1 = r2 := by
  have e1 := fight_mono f1 f2 g m r1 h1
  have e2 := fight_mono f2 f1 g m r2 h2
  rw [Nat.add_comm] at e2
  rw [e1] at e2
  exact Option.some.inj e2

/-- The run of `main`'s first encounter: four rounds, the fourth left by the
exception of `Monster::takeDamage`. -/
theorem goblin_run (n : String) (lg : List String) :
    ∃ r, (Game.new n lg).fight 4 Goblin = some r ∧
      r.playerAttacks = 4 ∧ r.monsterAttacks = 3 ∧
      r.game.player.health = 100 ∧ r.monster.health = -10 ∧
      r.game.player.level = 1 ∧ r.game.player.experience = 0 ∧
      r.caught = some "Goblin has been defeated!" := by
  simp [Game.fight, fightLoop, round, Character.attackEnemy, Monster.takeDamage, counterAttack,
    Character.takeDamage, wrapInt, Goblin, Game.new, Character.new, Monster.new, Battle.ongoing,
    Character.gainExperience]

/-- A fresh player against the Dragon: five rounds bring the player's health
to exactly 0, the loop condition fails and line 183 runs. -/
theorem dragon_run (n : String) (lg : List String) :
    ∃ r, (Game.new n lg).fight 5 Dragon = some r ∧
      r.playerAttacks = 5 ∧ r.monsterAttacks = 5 ∧
      r.game.player.health = 0 ∧ r.monster.health = 125 ∧
      r.game.player.level = 1 ∧ r.game.player.experience = 50 ∧
      r.caught = none := by
  simp [Game.fight, fightLoop, round, Character.attackEnemy, Monster.takeDamage, counterAttack,
    Character.takeDamage, wrapInt, Dragon, Game.new, Character.new, Monster.new, Battle.ongoing,
    Character.gainExperience]

theorem gainExperience_frame (c : Character) (a : Int) :
    (c.gainExperience a).name = c.name ∧ (c.gainExperience a).health = c.health ∧
    (c.gainExperience a).attack = c.attack ∧ (c.gainExperience a).defense = c.defense := by
  simp only [Character.gainExperience]
  split_ifs <;> simp only [and_self]

/-- What `gainExperience` computes when neither `experience += exp` nor
`level++` overflows. -/
theorem gainExperience_in_range (c : Character) (a : Int)
    (he : inIntRange (c.experience + a)) (hl : inIntRange (c.level + 1)) :
    c.gainExperience a =
      if c.experience + a ≥ 100 then
        { c with level := c.level + 1, experience := c.experience + a - 100 }
      else { c with experience := c.experience + a } := by
  have h1 : wrapInt (c.experience + a) = c.experience + a := wrapInt_eq_self _ he
  have h2 : wrapInt (c.level + 1) = c.level + 1 := wrapInt_eq_self _ hl
  simp only [Character.gainExperience, h1, h2]
  split_ifs with h
  · have h3 : wrapInt (c.experience + a - 100) = c.experience + a - 100 := by
      apply wrapInt_eq_self
      unfold inIntRange at he ⊢
      omega
    rw [h3]
  · rfl

/-- Class invariant of `Character`: after any call of `gainExperience` the
experience is at most `INT_MAX - 100`, so a later award of 50 cannot overflow. -/
theorem gainExperience_experience_le (c : Character) (a : Int) :
    (c.gainExperience a).experience ≤ 2147483547 := by
  simp only [Character.gainExperience]
  split_ifs with h
  · simp only
    unfold wrapInt at h ⊢
    omega
  · simp only
    omega

/-- What the loop of `Game::fight` guarantees about the player when it is
entered with non-negative player health: name, level and experience are kept,
a normal exit leaves the health non-negative, and a negative health means the
loop was left by the exception of `Character::takeDamage`. -/
theorem fightLoop_player_defeat (fuel : Nat) (b : Battle) (x : Battle × Option String)
    (h0 : 0 ≤ b.player.health) (hx : fightLoop fuel b = some x) :
    x.1.player.level = b.player.level ∧ x.1.player.experience = b.player.experience ∧
    (x.2 = none → 0 ≤ x.1.player.health) ∧
    (x.1.player.health < 0 → x.2 = some (b.player.name ++ " has died!")) := by
  refine fightLoop_rule
    (fun s => 0 ≤ s.player.health ∧ s.player.name = b.player.name ∧
      s.player.level = b.player.level ∧ s.player.experience = b.player.experience)
    (fun y => y.1.player.level = b.player.level ∧
      y.1.player.experience = b.player.experience ∧
      (y.2 = none → 0 ≤ y.1.player.health) ∧
      (y.1.player.health < 0 → y.2 = some (b.player.name ++ " has died!")))
    ?_ ?_ ?_ fuel b x ⟨h0, rfl, rfl, rfl⟩ hx
  · rintro s ⟨hs0, -, hl, he⟩ -
    exact ⟨hl, he, fun _ => hs0, fun hneg => absurd hs0 (not_le.mpr hneg)⟩
  · rintro s s1 msg ⟨hs0, hn, hl, he⟩ - hrd
    have hf := round_player_frame s
    rw [hrd] at hf
    refine ⟨hf.2.2.2.1.trans hl, hf.2.2.2.2.trans he, ?_, ?_⟩
    · intro hnone
      exact absurd hnone (by simp)
    · intro hneg
      rw [round_thrown_died s s1 msg hs0 hrd hneg, hn]
  · rintro s s1 ⟨hs0, hn, hl, he⟩ - hrd
    have hf := round_player_frame s
    rw [hrd] at hf
    exact ⟨round_normal_nonneg s s1 hs0 hrd, hf.1.trans hn, hf.2.2.2.1.trans hl,
      hf.2.2.2.2.trans he⟩

/-- The third encounter of `main`: the player enters with health 75 (after the
Skeleton) and the Dragon's fourth attack brings it to -5. -/
theorem wounded_dragon_run :
    ∃ r, Game.fight 4 { player := Character.new "Hero" 75 20 10, inventory := [], logger := [] }
        Dragon = some r ∧ r.game.player.health = -5 ∧ r.monster.health = 130 := by
  simp [Game.fight, fightLoop, round, Character.attackEnemy, Monster.takeDamage, counterAttack,
    Character.takeDamage, wrapInt, Dragon, Character.new, Monster.new, Battle.ongoing,
    Character.gainExperience]

/-! ## Stalemate and frame of the battle loop -/

/-- A round in which neither side deals positive net damage changes nothing
but the ghost counters. -/
theorem round_stalemate (b : Battle) (hm : b.monster.health > 0)
    (h1 : wrapInt (b.player.attack - b.monster.defense) ≤ 0)
    (h2 : wrapInt (b.monster.attack - b.player.defense) ≤ 0) :
    round b =
      ({ b with playerAttacks := b.playerAttacks + 1, monsterAttacks := b.monsterAttacks + 1 },
       none) := by
  have hd1 : ¬ wrapInt (b.player.attack - b.monster.defense) > 0 := not_lt.mpr h1
  have hd2 : ¬ wrapInt (b.monster.attack - b.player.defense) > 0 := not_lt.mpr h2
  simp only [round, Character.attackEnemy, counterAttack, hd1, hd2, if_false, hm, if_true]

theorem fightLoop_stalemate (fuel : Nat) :
    ∀ b : Battle, b.monster.health > 0 → b.player.health > 0 →
      wrapInt (b.player.attack - b.monster.defense) ≤ 0 →
      wrapInt (b.monster.attack - b.player.defense) ≤ 0 →
      fightLoop fuel b = none := by
  induction fuel with
  | zero =>
    intro b hm hp _ _
    exact fightLoop_zero b (by simp [Battle.ongoing, hm, hp])
  | succ n ih =>
    intro b hm hp h1 h2
    rw [fightLoop_succ n b (by simp [Battle.ongoing, hm, hp]), round_stalemate b hm h1 h2]
    exact ih _ hm hp h1 h2

/-- The battle loop only lowers the two healths and keeps name, attack and
defense of both sides, as well as the player's level and experience. -/
theorem fightLoop_frame (fuel : Nat) (b : Battle) (x : Battle × Option String)
    (hx : fightLoop fuel b = some x) :
    x.1.player.health ≤ b.player.health ∧ x.1.monster.health ≤ b.monster.health ∧
    x.1.player.name = b.player.name ∧ x.1.player.attack = b.player.attack ∧
    x.1.player.defense = b.player.defense ∧ x.1.player.level = b.player.level ∧
    x.1.player.experience = b.player.experience ∧
    x.1.monster.name = b.monster.name ∧ x.1.monster.attack = b.monster.attack ∧
    x.1.monster.defense = b.monster.defense := by
  have hround : ∀ s : Battle, s.ongoing = true →
      (round s).1.player.health ≤ s.player.health ∧
      (round s).1.monster.health ≤ s.monster.health ∧
      (round s).1.player.name = s.player.name ∧ (round s).1.player.attack = s.player.attack ∧
      (round s).1.player.defense = s.player.defense ∧
      (round s).1.player.level = s.player.level ∧
      (round s).1.player.experience = s.player.experience ∧
      (round s).1.monster.name = s.monster.name ∧
      (round s).1.monster.attack = s.monster.attack ∧
      (round s).1.monster.defense = s.monster.defense := by
    intro s hs
    simp only [Battle.ongoing, Bool.and_eq_true, decide_eq_true_eq] at hs
    have hf := round_player_frame s
    have hm := round_monster_frame s
    exact ⟨round_player_health_le s hs.2, (round_monster_health s hs.1).1, hf.1, hf.2.1,
      hf.2.2.1, hf.2.2.2.1, hf.2.2.2.2, hm.1, hm.2.1, hm.2.2⟩
  let P : Battle → Prop := fun s =>
    s.player.health ≤ b.player.health ∧ s.monster.health ≤ b.monster.health ∧
    s.player.name = b.player.name ∧ s.player.attack = b.player.attack ∧
    s.player.defense = b.player.defense ∧ s.player.level = b.player.level ∧
    s.player.experience = b.player.experience ∧
    s.monster.name = b.monster.name ∧ s.monster.attack = b.monster.attack ∧
    s.monster.defense = b.monster.defense
  have hstep : ∀ s s1 : Battle, ∀ e : Option String, P s → s.ongoing = true →
      round s = (s1, e) → P s1 := by
    intro s s1 e hs hon hrd
    have h := hround s hon
    rw [hrd] at h
    obtain ⟨a1, a2, a3, a4, a5, a6, a7, a8, a9, a10⟩ := h
    obtain ⟨c1, c2, c3, c4, c5, c6, c7, c8, c9, c10⟩ := hs
    exact ⟨le_trans a1 c1, le_trans a2 c2, a3.trans c3, a4.trans c4, a5.trans c5, a6.trans c6,
      a7.trans c7, a8.trans c8, a9.trans c9, a10.trans c10⟩
  exact fightLoop_rule P (fun y => P y.1)
    (fun s hs _ => hs)
    (fun s s1 msg hs hon hrd => hstep s s1 (some msg) hs hon hrd)
    (fun s s1 hs hon hrd => hstep s s1 none hs hon hrd)
    fuel b x ⟨le_refl _, le_refl _, rfl, rfl, rfl, rfl, rfl, rfl, rfl, rfl⟩ hx

/-- The battle loop of `main`'s first encounter is left by the exception of
`Monster::takeDamage`. -/
theorem goblin_loop_run :
    ∃ x, fightLoop 4 ⟨(Game.new "Hero" []).player, Goblin, (Game.new "Hero" []).logger, 0, 0⟩ =
        some x ∧ x.2 = some "Goblin has been defeated!" ∧ x.1.player.health = 100 := by
  simp [fightLoop, round, Character.attackEnemy, Monster.takeDamage, counterAttack,
    Character.takeDamage, wrapInt, Goblin, Game.new, Character.new, Monster.new, Battle.ongoing]

/-! ## The claims -/

/-- C1 (as stated, refuted): an attacker with attack 2147483647 against a
monster with defense -1 and health 50. The damage `attack - defense` of line
213 is no `int` value; the attack has no effect and the health stays 50, not
`50 - max 0 (2147483647 - (-1))`. -/
theorem overflowing_attack_has_no_effect :
    ((Character.new "Hero" 100 2147483647 10).attackEnemy
      (Monster.new "Goblin" 50 10 (-1)) []).monster.health = 50 ∧
    ((Character.new "Hero" 100 2147483647 10).attackEnemy
      (Monster.new "Goblin" 50 10 (-1)) []).monster.health ≠
        50 - max 0 (2147483647 - (-1)) := by
  simp [Character.attackEnemy, Monster.takeDamage, Character.new, Monster.new, wrapInt]

/-- C1 (amended): one attack, by `Character::attackEnemy` on a monster or by the
monster's counter-attack inside `Game::fight`, changes only the defender's
health; the other fields of the defender and all fields of the attacker are
unchanged, also when the attack throws. The damage is the `int` difference
`attacker.attack - defender.defense`, applied when it is above zero. When
that difference and the resulting health are `int` values (no overflow), the
health is lowered by exactly `max 0 (attacker.attack - defender.defense)`. -/
theorem attack_changes_only_defender_health (c : Character) (m : Monster)
    (lg : List String) :
    (c.attackEnemy m lg).player = c ∧
    (c.attackEnemy m lg).monster =
      { m with
        health := if wrapInt (c.attack - m.defense) > 0 then
            wrapInt (m.health - wrapInt (c.attack - m.defense))
          else m.health } ∧
    (counterAttack c m lg).monster = m ∧
    (counterAttack c m lg).player =
      { c with
        health := if wrapInt (m.attack - c.defense) > 0 then
            wrapInt (c.health - wrapInt (m.attack - c.defense))
          else c.health } ∧
    (inIntRange (c.attack - m.defense) →
      inIntRange (m.health - max 0 (c.attack - m.defense)) →
      (c.attackEnemy m lg).monster =
        { m with health := m.health - max 0 (c.attack - m.defense) }) ∧
    (inIntRange (m.attack - c.defense) →
      inIntRange (c.health - max 0 (m.attack - c.defense)) →
      (counterAttack c m lg).player =
        { c with health := c.health - max 0 (m.attack - c.defense) }) := by
  refine ⟨attackEnemy_player c m lg, ?_, counterAttack_monster c m lg, ?_, ?_, ?_⟩
  · rw [attackEnemy_monster]
    split_ifs <;> rfl
  · rw [counterAttack_player]
    split_ifs <;> rfl
  · intro hd hh
    rw [attackEnemy_monster, wrapInt_eq_self _ hd]
    split_ifs with h
    · rw [max_eq_right (le_of_lt h)] at hh
      rw [wrapInt_eq_self _ hh, max_eq_right (le_of_lt h)]
    · rw [max_eq_left (not_lt.mp h)]
      simp
  · intro hd hh
    rw [counterAttack_player, wrapInt_eq_self _ hd]
    split_ifs with h
    · rw [max_eq_right (le_of_lt h)] at hh
      rw [wrapInt_eq_self _ hh, max_eq_right (le_of_lt h)]
    · rw [max_eq_left (not_lt.mp h)]
      simp

/-- C1 (witness): the initial player's attack lowers the Goblin's health by
`max 0 (20 - 5)`, and the Goblin's counter-attack lowers the player's health
by `max 0 (10 - 10)`. -/
theorem attack_changes_only_defender_health_witness :
    ((Character.new "Hero" 100 20 10).attackEnemy Goblin []).monster =
      { Goblin with health := Goblin.health - max 0 (20 - 5) } ∧
    (counterAttack (Character.new "Hero" 100 20 10) Goblin []).player =
      { Character.new "Hero" 100 20 10 with health := 100 - max 0 (10 - 10) } :=
  ⟨(attack_changes_only_defender_health (Character.new "Hero" 100 20 10) Goblin []).2.2.2.2.1
      (by decide) (by decide),
   (attack_changes_only_defender_health (Character.new "Hero" 100 20 10) Goblin []).2.2.2.2.2
      (by decide) (by decide)⟩

/-- C2 (as stated, refuted): a monster with health -2147483648 takes damage 1.
`h - d` is below zero but is no `int` value: the stored health is 2147483647
and nothing is thrown. -/
theorem takeDamage_at_int_min_does_not_throw :
    ((Monster.new "Goblin" (-2147483648) 10 5).takeDamage 1).2 = none ∧
    ((Monster.new "Goblin" (-2147483648) 10 5).takeDamage 1).1.health = 2147483647 ∧
    ¬ ((((Monster.new "Goblin" (-2147483648) 10 5).takeDamage 1).2.isSome = true ↔
          (-2147483648 : Int) - 1 < 0) ∧
       ((Monster.new "Goblin" (-2147483648) 10 5).takeDamage 1).1.health =
          -2147483648 - 1) := by
  simp [Monster.takeDamage, Monster.new, wrapInt]

/-- C2 (amended): for a `Character` and for a `Monster` with health `h`, the
health stored by `takeDamage d` is the `int` difference `h - d`, and the
method throws exactly when the stored health is below zero. When `h - d` is
an `int` value (no overflow), the stored health is `h - d` and the method
throws exactly when `h - d < 0` (so not when `h - d = 0`). -/
theorem takeDamage_throws_iff_negative (c : Character) (m : Monster) (d : Int) :
    ((c.takeDamage d).2.isSome = true ↔ wrapInt (c.health - d) < 0) ∧
    (c.takeDamage d).1.health = wrapInt (c.health - d) ∧
    ((m.takeDamage d).2.isSome = true ↔ wrapInt (m.health - d) < 0) ∧
    (m.takeDamage d).1.health = wrapInt (m.health - d) ∧
    (inIntRange (c.health - d) →
      ((c.takeDamage d).2.isSome = true ↔ c.health - d < 0) ∧
      (c.takeDamage d).1.health = c.health - d) ∧
    (inIntRange (m.health - d) →
      ((m.takeDamage d).2.isSome = true ↔ m.health - d < 0) ∧
      (m.takeDamage d).1.health = m.health - d) := by
  have hc : ((c.takeDamage d).2.isSome = true ↔ wrapInt (c.health - d) < 0) ∧
      (c.takeDamage d).1.health = wrapInt (c.health - d) := by
    rw [character_takeDamage_snd, character_takeDamage_fst]
    refine ⟨?_, rfl⟩
    split_ifs with h <;> simp [h]
  have hm : ((m.takeDamage d).2.isSome = true ↔ wrapInt (m.health - d) < 0) ∧
      (m.takeDamage d).1.health = wrapInt (m.health - d) := by
    rw [monster_takeDamage_snd, monster_takeDamage_fst]
    refine ⟨?_, rfl⟩
    split_ifs with h <;> simp [h]
  refine ⟨hc.1, hc.2, hm.1, hm.2, ?_, ?_⟩
  · intro hr
    rw [← wrapInt_eq_self _ hr]
    exact hc
  · intro hr
    rw [← wrapInt_eq_self _ hr]
    exact hm

/-- C2 (witness): the Goblin at health 5 takes damage 15 and throws with
health -10; the player at health 20 takes damage 20, reaches 0 and does not
throw. -/
theorem takeDamage_throws_iff_negative_witness :
    (((Monster.new "Goblin" 5 10 5).takeDamage 15).2.isSome = true ↔ (5 : Int) - 15 < 0) ∧
    ((Monster.new "Goblin" 5 10 5).takeDamage 15).1.health = 5 - 15 ∧
    (((Character.new "Hero" 20 20 10).takeDamage 20).2.isSome = true ↔ (20 : Int) - 20 < 0) ∧
    ((Character.new "Hero" 20 20 10).takeDamage 20).1.health = 20 - 20 :=
  ⟨((takeDamage_throws_iff_negative (Character.new "Hero" 20 20 10)
      (Monster.new "Goblin" 5 10 5) 15).2.2.2.2.2 (by decide)).1,
   ((takeDamage_throws_iff_negative (Character.new "Hero" 20 20 10)
      (Monster.new "Goblin" 5 10 5) 15).2.2.2.2.2 (by decide)).2,
   ((takeDamage_throws_iff_negative (Character.new "Hero" 20 20 10)
      (Monster.new "Goblin" 5 10 5) 20).2.2.2.2.1 (by decide)).1,
   ((takeDamage_throws_iff_negative (Character.new "Hero" 20 20 10)
      (Monster.new "Goblin" 5 10 5) 20).2.2.2.2.1 (by decide)).2⟩

/-- C3 (evaluation at the failing input): the fight of the initial player
against the Goblin ends with the monster's health below zero, and the player's
progression total `100 * level + experience` is the same as before the fight,
not 50 more. -/
theorem goblin_victory_awards_no_experience (k : Nat) :
    ∃ r, (Game.new "Hero" []).fight (4 + k) Goblin = some r ∧ r.monster.health < 0 ∧
      100 * r.game.player.level + r.game.player.experience =
        100 * (Game.new "Hero" []).player.level + (Game.new "Hero" []).player.experience := by
  obtain ⟨r, hr, -, -, -, hm, hl, he, -⟩ := goblin_run "Hero" []
  refine ⟨r, fight_mono 4 k _ _ r hr, ?_, ?_⟩
  · rw [hm]; decide
  · rw [hl, he]; rfl

/-- C4 (as stated, refuted): no run of the fight of the initial player against
the Goblin ends with player health 85 and experience 50. -/
theorem goblin_fight_not_85_50 :
    ¬ ∃ fuel r, (Game.new "Hero" []).fight fuel Goblin = some r ∧
      r.playerAttacks = 4 ∧ r.monsterAttacks = 3 ∧ r.game.player.health = 85 ∧
      r.monster.health = -10 ∧ r.game.player.level = 1 ∧ r.game.player.experience = 50 := by
  rintro ⟨fuel, r, hr, -, -, hh, -⟩
  obtain ⟨r0, hr0, -, -, hh0, -⟩ := goblin_run "Hero" []
  have := fight_det fuel 4 _ _ r r0 hr hr0
  rw [this, hh0] at hh
  exact absurd hh (by decide)

/-- C4 (amended): the fight of the initial player (health 100, attack 20,
defense 10, level 1, experience 0) against a Goblin ends after 4 player
attacks and 3 monster attacks with player health 100, monster health -10 and
player level 1. -/
theorem goblin_fight_end_to_end (n : String) (lg : List String) (k : Nat) :
    ∃ r, (Game.new n lg).fight (4 + k) Goblin = some r ∧
      r.playerAttacks = 4 ∧ r.monsterAttacks = 3 ∧ r.game.player.health = 100 ∧
      r.monster.health = -10 ∧ r.game.player.level = 1 := by
  obtain ⟨r, hr, h1, h2, h3, h4, h5, -⟩ := goblin_run n lg
  exact ⟨r, fight_mono 4 k _ _ r hr, h1, h2, h3, h4, h5⟩

/-- C5 (evaluation at the failing input): the fight of the initial player
against the Dragon terminates with the player's experience raised from 0 to 50
although the monster's final health is 125, not below zero. -/
theorem dragon_fight_awards_experience_without_victory (k : Nat) :
    ∃ r, (Game.new "Hero" []).fight (5 + k) Dragon = some r ∧
      r.game.player.experience = (Game.new "Hero" []).player.experience + 50 ∧
      r.monster.health = 125 ∧ r.game.player.health = 0 := by
  obtain ⟨r, hr, -, -, hh, hm, -, he, -⟩ := dragon_run "Hero" []
  refine ⟨r, fight_mono 5 k _ _ r hr, ?_, hm, hh⟩
  rw [he]; rfl

/-- C6: when a fight entered with non-negative player health ends with the
player's health below zero, it was ended by the exception of
`Character::takeDamage` in the monster's attack, and the player's level and
experience are the same as before the fight. -/
theorem fight_player_defeat_no_award (fuel : Nat) (g : Game) (m : Monster) (r : FightResult)
    (h0 : 0 ≤ g.player.health) (hr : g.fight fuel m = some r)
    (hd : r.game.player.health < 0) :
    r.caught = some (g.player.name ++ " has died!") ∧
    r.game.player.level = g.player.level ∧
    r.game.player.experience = g.player.experience := by
  rw [fight_eq] at hr
  rcases hl : fightLoop fuel
      { player := g.player, monster := m, logger := g.logger,
        playerAttacks := 0, monsterAttacks := 0 } with _ | x
  · rw [hl] at hr; cases hr
  · rw [hl] at hr
    obtain ⟨hlev, hexp, hnone, hneg⟩ := fightLoop_player_defeat fuel _ x h0 hl
    simp only [Option.map_some', Option.some.injEq] at hr
    subst hr
    simp only at hd ⊢
    rcases hx2 : x.2 with _ | msg
    · rw [hx2] at hd
      simp only [Option.isSome_none, Bool.false_eq_true, if_false] at hd
      rw [(gainExperience_frame x.1.player 50).2.1] at hd
      exact absurd (hnone hx2) (not_le.mpr hd)
    · rw [hx2] at hd
      simp only [Option.isSome_some, if_true] at hd ⊢
      have := hneg hd
      rw [hx2] at this
      exact ⟨this, hlev, hexp⟩

/-- C6 (witness): the player with health 75 against the Dragon. -/
theorem fight_player_defeat_no_award_witness :
    ∃ r, Game.fight 4 { player := Character.new "Hero" 75 20 10, inventory := [], logger := [] }
        Dragon = some r ∧ r.game.player.health < 0 ∧
      r.caught = some "Hero has died!" ∧ r.game.player.level = 1 ∧
      r.game.player.experience = 0 := by
  obtain ⟨r, hr, hh, -⟩ := wounded_dragon_run
  have hneg : r.game.player.health < 0 := by rw [hh]; decide
  exact ⟨r, hr, hneg,
    fight_player_defeat_no_award 4
      { player := Character.new "Hero" 75 20 10, inventory := [], logger := [] }
      Dragon r (by decide) hr hneg⟩

/-- C7 (as stated, refuted): with level 1 and experience 0, `gainExperience 250`
does not give level `1 + 250 / 100 = 3` and experience `250 % 100 = 50`; it
gives level 2 and experience 150, which is not below 100, and so differs from
the loop of the specification. -/
theorem gainExperience_250_not_loop :
    ¬ (((Character.new "Hero" 100 20 10).gainExperience 250).level = 1 + (0 + 250) / 100 ∧
       ((Character.new "Hero" 100 20 10).gainExperience 250).experience = (0 + 250) % 100 ∧
       ((Character.new "Hero" 100 20 10).gainExperience 250).experience < 100) ∧
    ((Character.new "Hero" 100 20 10).gainExperience 250).level = 2 ∧
    ((Character.new "Hero" 100 20 10).gainExperience 250).experience = 150 ∧
    (Character.new "Hero" 100 20 10).gainExperience 250 ≠
      gainExperienceLoopSpec (Character.new "Hero" 100 20 10) 250 := by
  simp [Character.gainExperience, Character.new, gainExperienceLoopSpec, wrapInt]

/-- C7 (amended): for a level `L` with `L + 1` an `int` value, experience `e`
with `0 ≤ e < 100` and an amount `a ≥ 0`: when `e + a < 200` the call agrees
with the loop of the specification (level `L + (e + a) / 100`, experience
`(e + a) % 100`, below 100); when `200 ≤ e + a` and `e + a` is an `int` value
the single `if` raises the level by exactly 1 and leaves experience
`e + a - 100`. -/
theorem gainExperience_one_level_per_call (c : Character) (a : Int)
    (he0 : 0 ≤ c.experience) (he1 : c.experience < 100) (ha : 0 ≤ a)
    (hl : inIntRange (c.level + 1)) :
    (c.experience + a < 200 →
      c.gainExperience a = gainExperienceLoopSpec c a ∧
      (c.gainExperience a).level = c.level + (c.experience + a) / 100 ∧
      (c.gainExperience a).experience = (c.experience + a) % 100 ∧
      (c.gainExperience a).experience < 100) ∧
    (200 ≤ c.experience + a → inIntRange (c.experience + a) →
      (c.gainExperience a).level = c.level + 1 ∧
      (c.gainExperience a).experience = c.experience + a - 100) := by
  constructor
  · intro h
    have hr : inIntRange (c.experience + a) := by unfold inIntRange; omega
    rw [gainExperience_in_range c a hr hl]
    simp only [gainExperienceLoopSpec]
    split_ifs with h1
    · have hq : (c.experience + a) / 100 = 1 := by omega
      have hm : (c.experience + a) % 100 = c.experience + a - 100 := by omega
      simp only [hq, hm, true_and]
      omega
    · have hq : (c.experience + a) / 100 = 0 := by omega
      have hm : (c.experience + a) % 100 = c.experience + a := by omega
      simp only [hq, hm, add_zero, true_and]
      omega
  · intro h hr
    rw [gainExperience_in_range c a hr hl, if_pos (by simp only [ge_iff_le]; omega)]
    exact ⟨rfl, rfl⟩

/-- C7 (witness): level 1, experience 80, amount 50. -/
theorem gainExperience_one_level_per_call_witness :
    (Character.gainExperience
      { name := "Hero", health := 100, attack := 20, defense := 10, level := 1,
        experience := 80 } 50).level = 2 ∧
    (Character.gainExperience
      { name := "Hero", health := 100, attack := 20, defense := 10, level := 1,
        experience := 80 } 50).experience = 30 := by
  have h := (gainExperience_one_level_per_call
    { name := "Hero", health := 100, attack := 20, defense := 10, level := 1,
      experience := 80 } 50 (by decide) (by decide) (by decide) (by decide)).1 (by decide)
  exact ⟨h.2.1, h.2.2.1⟩

/-- C8 (as stated, refuted): a new player after `gainExperience (-2147483648)`
has level 1 and experience -2147483648; a further `gainExperience (-1)` has
`e + a < 100`, but `e + a` is no `int` value: line 49 leaves 2147483647, the
level rises to 2 and the experience is 2147483547, not `e + a`. -/
theorem gainExperience_below_int_min_levels_up :
    ((Character.new "Hero" 100 20 10).gainExperience (-2147483648)).level = 1 ∧
    ((Character.new "Hero" 100 20 10).gainExperience (-2147483648)).experience =
      -2147483648 ∧
    (((Character.new "Hero" 100 20 10).gainExperience (-2147483648)).gainExperience (-1)).level
      = 2 ∧
    (((Character.new "Hero" 100 20 10).gainExperience
      (-2147483648)).gainExperience (-1)).experience = 2147483547 ∧
    ¬ ((-2147483648 : Int) + (-1) < 100 →
        (((Character.new "Hero" 100 20 10).gainExperience
          (-2147483648)).gainExperience (-1)).level = 1 ∧
        (((Character.new "Hero" 100 20 10).gainExperience
          (-2147483648)).gainExperience (-1)).experience = -2147483648 + (-1)) := by
  simp [Character.gainExperience, Character.new, wrapInt]

/-- C8 (amended): for level `L`, experience `e` and amount `a`: when
`100 ≤ e + a < 200` and `L + 1` is an `int` value, the call leaves level
`L + 1` and experience `e + a - 100`; when `e + a < 100` and `e + a` is an
`int` value (the sum does not overflow), it leaves the level unchanged and
experience `e + a`. -/
theorem gainExperience_wraps_once (c : Character) (a : Int) :
    (100 ≤ c.experience + a → c.experience + a < 200 → inIntRange (c.level + 1) →
      (c.gainExperience a).level = c.level + 1 ∧
      (c.gainExperience a).experience = c.experience + a - 100) ∧
    (c.experience + a < 100 → inIntRange (c.experience + a) →
      (c.gainExperience a).level = c.level ∧
      (c.gainExperience a).experience = c.experience + a) := by
  constructor
  · intro h h2 hl
    have hr : inIntRange (c.experience + a) := by unfold inIntRange; omega
    rw [gainExperience_in_range c a hr hl, if_pos (by simpa using h)]
    exact ⟨rfl, rfl⟩
  · intro h hr
    have h1 : wrapInt (c.experience + a) = c.experience + a := wrapInt_eq_self _ hr
    simp only [Character.gainExperience, h1]
    rw [if_neg (by simpa using h)]
    exact ⟨rfl, rfl⟩

/-- C8 (witness): experience 80, gain 50 gives level + 1 and experience 30. -/
theorem gainExperience_wraps_once_witness :
    (Character.gainExperience
      { name := "Hero", health := 85, attack := 20, defense := 10, level := 3,
        experience := 80 } 50).level = 3 + 1 ∧
    (Character.gainExperience
      { name := "Hero", health := 85, attack := 20, defense := 10, level := 3,
        experience := 80 } 50).experience = 80 + 50 - 100 :=
  (gainExperience_wraps_once
    { name := "Hero", health := 85, attack := 20, defense := 10, level := 3,
      experience := 80 } 50).1 (by decide) (by decide) (by decide)

/-- C9 (as stated, refuted): `heal 2147483647` at health 100. The sum of line
43 is no `int` value; the health becomes -2147483549, not
`min (100 + 2147483647) 100 = 100`. -/
theorem heal_int_max_leaves_negative_health :
    ((Character.new "Hero" 100 20 10).heal 2147483647).health = -2147483549 ∧
    ((Character.new "Hero" 100 20 10).heal 2147483647).health ≠
      min (100 + 2147483647) 100 := by
  simp [Character.heal, Character.new, wrapInt]

/-- C9 (amended): `heal` is a total function without an error exit and changes
no field but the health, which becomes the `int` sum `h + amount` clamped at
100, so it is never above 100 afterwards. When `h + amount` is an `int` value
(no overflow), the health becomes `min (h + amount) 100`. -/
theorem heal_clamps_at_100 (c : Character) (amount : Int) :
    c.heal amount = { c with health := min (wrapInt (c.health + amount)) 100 } ∧
    (c.heal amount).health ≤ 100 ∧
    (inIntRange (c.health + amount) →
      c.heal amount = { c with health := min (c.health + amount) 100 }) := by
  have h1 : c.heal amount = { c with health := min (wrapInt (c.health + amount)) 100 } := by
    simp only [Character.heal]
    split_ifs with h
    · simp only [gt_iff_lt] at h
      rw [min_eq_right (le_of_lt h)]
    · simp only [gt_iff_lt, not_lt] at h
      rw [min_eq_left h]
  refine ⟨h1, ?_, ?_⟩
  · rw [h1]
    exact min_le_right _ _
  · intro hr
    rw [h1, wrapInt_eq_self _ hr]

/-- C9 (witness): health 90, heal 50 gives 100, not 140. -/
theorem heal_clamps_at_100_witness :
    (Character.new "Hero" 90 20 10).heal 50 =
      { Character.new "Hero" 90 20 10 with health := min (90 + 50) 100 } :=
  (heal_clamps_at_100 (Character.new "Hero" 90 20 10) 50).2.2 (by decide)

/-- C10 (as stated, refuted): the initial player against a monster with health
50, attack 10 and defense -2147483648. The player's attack exceeds the
monster's defense, but the damage `20 - (-2147483648)` of line 213 is no
`int` value and is not above zero, and the monster's net damage is 0: the
fight returns for no amount of fuel. -/
theorem overflowing_damage_never_terminates :
    (Game.new "Hero" []).player.attack > (Monster.new "Wall" 50 10 (-2147483648)).defense ∧
    ¬ ∃ fuel r, (Game.new "Hero" []).fight fuel (Monster.new "Wall" 50 10 (-2147483648)) =
        some r := by
  refine ⟨by decide, ?_⟩
  rintro ⟨fuel, r, hr⟩
  rw [fight_eq, fightLoop_stalemate fuel _ (by decide) (by decide) (by decide) (by decide)]
    at hr
  cases hr

/-- C10 (amended): when the player's net damage or the monster's net damage, as
the code computes it (the `int` difference of attack and defense), is above
zero, the battle loop ends after finitely many rounds, whatever the starting
healths: some fuel suffices for `Game::fight` to return, and every larger
fuel gives the same result. -/
theorem fight_terminates (g : Game) (m : Monster)
    (h : wrapInt (g.player.attack - m.defense) > 0 ∨
      wrapInt (m.attack - g.player.defense) > 0) :
    ∃ fuel r, ∀ k, g.fight (fuel + k) m = some r := by
  have hl : ∃ fuel, (fightLoop fuel ⟨g.player, m, g.logger, 0, 0⟩).isSome = true := by
    rcases h with h | h
    · exact ⟨m.health.toNat, fightLoop_terminates_player _ _ h (Int.self_le_toNat _)⟩
    · exact ⟨g.player.health.toNat, fightLoop_terminates_monster _ _ h (Int.self_le_toNat _)⟩
  obtain ⟨fuel, hf⟩ := hl
  obtain ⟨x, hx⟩ := Option.isSome_iff_exists.mp hf
  have hr : ∃ r, g.fight fuel m = some r := by
    rw [fight_eq, hx]
    exact ⟨_, rfl⟩
  obtain ⟨r, hr⟩ := hr
  exact ⟨fuel, r, fun k => fight_mono fuel k g m r hr⟩

/-- C10 (witness): the initial player against the Skeleton (net damage
`20 - 8 = 12`). -/
theorem fight_terminates_witness :
    (wrapInt ((Game.new "Hero" []).player.attack - Skeleton.defense) > 0 ∨
      wrapInt (Skeleton.attack - (Game.new "Hero" []).player.defense) > 0) ∧
    ∃ fuel r, ∀ k, (Game.new "Hero" []).fight (fuel + k) Skeleton = some r :=
  ⟨Or.inl (by decide), fight_terminates (Game.new "Hero" []) Skeleton (Or.inl (by decide))⟩

/-! ## Decimal text of integers -/

theorem digitChar_decimal (d : Nat) (h : d < 10) :
    isDecDigit (Nat.digitChar d) = true ∧ (Nat.digitChar d).toNat - 48 = d := by
  interval_cases d <;> exact ⟨by decide, by decide⟩

theorem digitsValue_snoc (l : List Char) (c : Char) :
    digitsValue (l ++ [c]) = 10 * digitsValue l + (c.toNat - 48) := by
  simp [digitsValue, List.foldl_append]

theorem toDigitsCore_append (f : Nat) :
    ∀ (n : Nat) (ds : List Char),
      Nat.toDigitsCore 10 f n ds = Nat.toDigitsCore 10 f n [] ++ ds := by
  induction f with
  | zero => intro n ds; simp [Nat.toDigitsCore]
  | succ f ih =>
    intro n ds
    simp only [Nat.toDigitsCore]
    split_ifs
    · simp
    · rw [ih (n / 10) (Nat.digitChar (n % 10) :: ds), ih (n / 10) [Nat.digitChar (n % 10)]]
      simp

theorem toDigitsCore_ne_nil (f n : Nat) : Nat.toDigitsCore 10 (f + 1) n [] ≠ [] := by
  simp only [Nat.toDigitsCore]
  split_ifs
  · simp
  · rw [toDigitsCore_append]
    simp

theorem toDigitsCore_decimal (f : Nat) :
    ∀ n : Nat, ∀ c ∈ Nat.toDigitsCore 10 f n [], isDecDigit c = true := by
  induction f with
  | zero => intro n c hc; simp [Nat.toDigitsCore] at hc
  | succ f ih =>
    intro n c hc
    simp only [Nat.toDigitsCore] at hc
    have hd := (digitChar_decimal (n % 10) (Nat.mod_lt n (by decide))).1
    split_ifs at hc
    · simp only [List.mem_singleton] at hc
      rw [hc]; exact hd
    · rw [toDigitsCore_append] at hc
      simp only [List.mem_append, List.mem_singleton] at hc
      rcases hc with hc | hc
      · exact ih (n / 10) c hc
      · rw [hc]; exact hd

theorem toDigitsCore_value (f : Nat) :
    ∀ n : Nat, n < f → digitsValue (Nat.toDigitsCore 10 f n []) = n := by
  induction f with
  | zero => intro n h; omega
  | succ f ih =>
    intro n h
    have hv := (digitChar_decimal (n % 10) (Nat.mod_lt n (by decide))).2
    simp only [Nat.toDigitsCore]
    split_ifs with h0
    · simp only [digitsValue, List.foldl_cons, List.foldl_nil, Nat.mul_zero, Nat.zero_add]
      rw [hv]
      omega
    · rw [toDigitsCore_append, digitsValue_snoc, hv, ih (n / 10) (by omega)]
      omega

/-- Decimal text of an integer as `operator<<` writes it. -/
theorem toString_int_data (i : Int) :
    (toString i).data =
      if i < 0 then '-' :: Nat.toDigits 10 (-i).toNat else Nat.toDigits 10 i.toNat := by
  cases i with
  | ofNat m =>
    have h : ¬ (Int.ofNat m < 0) := by simp
    rw [if_neg h]
    rfl
  | negSucc m =>
    have h : Int.negSucc m < 0 := Int.negSucc_lt_zero m
    rw [if_pos h]
    rfl

theorem toDigits_ne_nil (n : Nat) : Nat.toDigits 10 n ≠ [] :=
  toDigitsCore_ne_nil n n

theorem toDigits_decimal (n : Nat) : ∀ c ∈ Nat.toDigits 10 n, isDecDigit c = true :=
  toDigitsCore_decimal (n + 1) n

theorem toDigits_value (n : Nat) : digitsValue (Nat.toDigits 10 n) = n :=
  toDigitsCore_value (n + 1) n (Nat.lt_succ_self n)

/-! ## Stream extraction -/

theorem takeWhile_dropWhile_stop (p : Char → Bool) (l : List Char) (c : Char)
    (r : List Char) (hl : ∀ x ∈ l, p x = true) (hc : p c = false) :
    (l ++ c :: r).takeWhile p = l ∧ (l ++ c :: r).dropWhile p = c :: r := by
  induction l with
  | nil => simp [hc]
  | cons a t ih =>
    have ha : p a = true := hl a (List.mem_cons_self a t)
    have ht := ih (fun x hx => hl x (List.mem_cons_of_mem a hx))
    simp [ha, ht.1, ht.2]

theorem isDecDigit_not_space (c : Char) (h : isDecDigit c = true) : isSpace c = false := by
  simp only [isDecDigit, Bool.and_eq_true, decide_eq_true_eq] at h
  simp only [isSpace, Bool.or_eq_false_iff, Bool.and_eq_false_iff, decide_eq_false_iff_not]
  omega

theorem isDecDigit_not_sign (c : Char) (h : isDecDigit c = true) : c ≠ '-' ∧ c ≠ '+' := by
  constructor <;> (rintro rfl; revert h; decide)

/-- Extraction of a string in front of a white-space character reads exactly
the characters before it. -/
theorem extractString_token (tok : List Char) (hne : tok ≠ [])
    (hns : ∀ x ∈ tok, isSpace x = false) (c : Char) (hc : isSpace c = true)
    (rest : List Char) (old : String) :
    IStream.extractString { buf := tok ++ c :: rest, failed := false } old =
      (String.mk tok, { buf := c :: rest, failed := false }) := by
  obtain ⟨a, t, rfl⟩ := List.exists_cons_of_ne_nil hne
  have ha : isSpace a = false := hns a (List.mem_cons_self a t)
  have hdw : ((a :: t) ++ c :: rest).dropWhile isSpace = (a :: t) ++ c :: rest := by
    simp [ha]
  have hs := takeWhile_dropWhile_stop (fun x => !isSpace x) (a :: t) c rest
    (by intro x hx; simp [hns x hx]) (by simp [hc])
  simp only [IStream.extractString, hdw, hs.1, hs.2]
  simp

/-- Extraction of an `int` from a space, an optional minus sign, a non-empty
run of digits and a character that is not a digit, when the value is in range. -/
theorem extractInt_digits (neg : Bool) (ds : List Char) (hne : ds ≠ [])
    (hd : ∀ x ∈ ds, isDecDigit x = true) (c : Char) (hc : isDecDigit c = false)
    (rest : List Char) (old : Int)
    (hlo : -2147483648 ≤ (if neg then -(digitsValue ds : Int) else (digitsValue ds : Int)))
    (hhi : (if neg then -(digitsValue ds : Int) else (digitsValue ds : Int)) ≤ 2147483647) :
    IStream.extractInt
        { buf := ' ' :: ((if neg then '-' :: ds else ds) ++ c :: rest), failed := false } old =
      ((if neg then -(digitsValue ds : Int) else (digitsValue ds : Int)),
       { buf := c :: rest, failed := false }) := by
  obtain ⟨a, t, rfl⟩ := List.exists_cons_of_ne_nil hne
  have ha : isDecDigit a = true := hd a (List.mem_cons_self a t)
  have has : isSpace a = false := isDecDigit_not_space a ha
  have hsg := isDecDigit_not_sign a ha
  have hs := takeWhile_dropWhile_stop isDecDigit (a :: t) c rest hd hc
  have hsp : isSpace ' ' = true := by decide
  have hmin : isSpace '-' = false := by decide
  cases neg with
  | false =>
    simp only [Bool.false_eq_true, if_false] at hlo hhi ⊢
    have hdw : (' ' :: ((a :: t) ++ c :: rest)).dropWhile isSpace = (a :: t) ++ c :: rest := by
      simp [hsp, has]
    have hh : ((a :: t) ++ c :: rest).head? = some a := rfl
    have hemp : ((a :: t) ++ c :: rest).isEmpty = false := rfl
    simp only [IStream.extractInt, hdw, hemp, hh, Bool.false_eq_true, if_false,
      Option.some.injEq, hsg.1, hsg.2, decide_False, Bool.or_self, hs.1, hs.2,
      List.isEmpty_cons]
    rw [if_neg (by omega), if_neg (by omega)]
  | true =>
    simp only [if_true] at hlo hhi ⊢
    have hdw : (' ' :: (('-' :: a :: t) ++ c :: rest)).dropWhile isSpace =
        '-' :: ((a :: t) ++ c :: rest) := by
      simp [hsp, hmin]
    have hh : ('-' :: ((a :: t) ++ c :: rest)).head? = some '-' := rfl
    simp only [IStream.extractInt, hdw, hh, Bool.false_eq_true, if_false, decide_True,
      Bool.true_or, if_true, List.tail_cons, hs.1, hs.2, List.isEmpty_cons]
    rw [if_neg (by omega), if_neg (by omega)]

/-- Reading back the decimal text of an `int`: the extraction returns the
value that was written and stops at the character after its digits. -/
theorem extractInt_toString (i : Int) (hi : inIntRange i) (c : Char)
    (hc : isDecDigit c = false) (rest : List Char) (old : Int) :
    IStream.extractInt { buf := ' ' :: ((toString i).data ++ c :: rest), failed := false } old =
      (i, { buf := c :: rest, failed := false }) := by
  obtain ⟨hlo, hhi⟩ := hi
  rw [toString_int_data]
  by_cases hneg : i < 0
  · rw [if_pos hneg]
    have hv : -((digitsValue (Nat.toDigits 10 (-i).toNat) : Nat) : Int) = i := by
      rw [toDigits_value]
      omega
    have h := extractInt_digits true (Nat.toDigits 10 (-i).toNat) (toDigits_ne_nil _)
      (toDigits_decimal _) c hc rest old
      (by simp only [if_true]; rw [hv]; exact hlo) (by simp only [if_true]; rw [hv]; exact hhi)
    simp only [if_true] at h
    rw [hv] at h
    exact h
  · rw [if_neg hneg]
    have hv : ((digitsValue (Nat.toDigits 10 i.toNat) : Nat) : Int) = i := by
      rw [toDigits_value]
      omega
    have h := extractInt_digits false (Nat.toDigits 10 i.toNat) (toDigits_ne_nil _)
      (toDigits_decimal _) c hc rest old
      (by simp only [Bool.false_eq_true, if_false]; rw [hv]; exact hlo)
      (by simp only [Bool.false_eq_true, if_false]; rw [hv]; exact hhi)
    simp only [Bool.false_eq_true, if_false] at h
    rw [hv] at h
    exact h

/-- Characters of the line written by `Game::saveGame`. -/
theorem saveGame_text (g : Game) :
    ∃ text, g.saveGame true = .ok text ∧
      text.data = g.player.name.data ++ ' ' :: ((toString g.player.health).data ++
        ' ' :: ((toString g.player.attack).data ++
        ' ' :: ((toString g.player.defense).data ++ '\n' :: []))) := by
  refine ⟨g.player.name ++ " " ++ toString g.player.health ++ " " ++
      toString g.player.attack ++ " " ++ toString g.player.defense ++ "\n", ?_, ?_⟩
  · simp only [Game.saveGame, if_true]
  simp only [String.data_append]
  simp

/-! ## The event log -/

theorem attackEnemy_logger (c : Character) (m : Monster) (lg : List String) :
    (c.attackEnemy m lg).logger =
      if 0 < wrapInt (c.attack - m.defense) ∧
          ¬ wrapInt (m.health - wrapInt (c.attack - m.defense)) < 0 then
        lg ++ [attackLineSpec c.name m.name (wrapInt (c.attack - m.defense))]
      else lg := by
  simp only [Character.attackEnemy, Monster.takeDamage, attackLineSpec]
  split_ifs <;> first | rfl | (exfalso; tauto)

theorem counterAttack_logger (c : Character) (m : Monster) (lg : List String) :
    (counterAttack c m lg).logger =
      if 0 < wrapInt (m.attack - c.defense) ∧
          ¬ wrapInt (c.health - wrapInt (m.attack - c.defense)) < 0 then
        lg ++ [attackLineSpec m.name c.name (wrapInt (m.attack - c.defense))]
      else lg := by
  simp only [counterAttack, Character.takeDamage, attackLineSpec]
  split_ifs <;> first | rfl | (exfalso; tauto)

/-- The log after a round is the log before it followed by the lines of the
specification for that round. -/
theorem round_logger (b : Battle) : (round b).1.logger = b.logger ++ roundLinesSpec b := by
  by_cases hd1 : wrapInt (b.player.attack - b.monster.defense) > 0 <;>
  by_cases hh1 :
    wrapInt (b.monster.health - wrapInt (b.player.attack - b.monster.defense)) < 0 <;>
  by_cases hd2 : wrapInt (b.monster.attack - b.player.defense) > 0 <;>
  by_cases hh2 :
    wrapInt (b.player.health - wrapInt (b.monster.attack - b.player.defense)) < 0 <;>
  simp only [round, roundLinesSpec, attackLineSpec, Character.attackEnemy, counterAttack,
    Monster.takeDamage, Character.takeDamage, hd1, hh1, hd2, hh2, if_true, if_false] <;>
  (try split_ifs) <;> simp_all <;> omega

/-- The log after the battle loop is the log before it followed by the lines
of the specification for the rounds played. -/
theorem fightLoop_logger (fuel : Nat) :
    ∀ (b : Battle) (x : Battle × Option String), fightLoop fuel b = some x →
      x.1.logger = b.logger ++ fightLinesSpec fuel b := by
  induction fuel with
  | zero =>
    intro b x hx
    cases hb : b.ongoing with
    | true => rw [fightLoop_zero b hb] at hx; cases hx
    | false =>
      rw [fightLoop_stop 0 b hb] at hx
      cases hx
      simp [fightLinesSpec]
  | succ n ih =>
    intro b x hx
    cases hb : b.ongoing with
    | false =>
      rw [fightLoop_stop (n + 1) b hb] at hx
      cases hx
      simp [fightLinesSpec, hb]
    | true =>
      rw [fightLoop_succ n b hb] at hx
      have hrl := round_logger b
      simp only [fightLinesSpec, hb, if_true]
      rcases hrd : round b with ⟨b1, _ | msg⟩
      · rw [hrd] at hx hrl
        simp only at hx hrl ⊢
        rw [ih b1 x hx, hrl, List.append_assoc]
      · rw [hrd] at hx hrl
        simp only at hx hrl ⊢
        cases hx
        simp only [List.append_nil]
        exact hrl

/-- The log of `main`'s first encounter: three lines for seven attacks. -/
theorem goblin_log_run :
    ∃ r, (Game.new "Hero" []).fight 4 Goblin = some r ∧
      r.playerAttacks = 4 ∧ r.monsterAttacks = 3 ∧ r.game.logger.length = 3 := by
  simp [Game.fight, fightLoop, round, Character.attackEnemy, Monster.takeDamage, counterAttack,
    Character.takeDamage, wrapInt, Goblin, Game.new, Character.new, Monster.new, Battle.ongoing,
    Character.gainExperience]

/-! ## The claims on persistence, logging and the shape of a fight -/

/-- C11: save/load round trip. For every player whose name is non-empty and
has no white space, and whose health, attack and defense are `int` values,
`Game::loadGame`, in any game at all, applied to the line written by
`Game::saveGame` yields a player with the saved name, health, attack and
defense (a zero or negative health included) and with level 1 and experience
0, whatever the level and experience were; the inventory and the log of the
loading game are untouched. -/
theorem save_load_round_trip (g g2 : Game) (hp0 atk0 def0 : Int)
    (hne : g.player.name.data ≠ [])
    (hws : ∀ c ∈ g.player.name.data, isSpace c = false)
    (hh : inIntRange g.player.health) (ha : inIntRange g.player.attack)
    (hd : inIntRange g.player.defense) :
    ∃ text, g.saveGame true = .ok text ∧
      g2.loadGame (some text) hp0 atk0 def0 =
        .ok { g2 with
              player := { name := g.player.name, health := g.player.health,
                          attack := g.player.attack, defense := g.player.defense,
                          level := 1, experience := 0 } } := by
  obtain ⟨text, hs, ht⟩ := saveGame_text g
  refine ⟨text, hs, ?_⟩
  simp only [Game.loadGame, ht]
  rw [extractString_token g.player.name.data hne hws ' ' (by decide) _ ""]
  simp only
  rw [extractInt_toString _ hh ' ' (by decide)]
  simp only
  rw [extractInt_toString _ ha ' ' (by decide)]
  simp only
  rw [extractInt_toString _ hd '\n' (by decide)]
  rfl

/-- C11 (witness): the player "Hero" with health 85, attack 20, defense 10,
saved at level 3 with experience 40, and loaded into a game that holds another
player. -/
theorem save_load_round_trip_witness :
    ∃ text,
      Game.saveGame
        { player := { name := "Hero", health := 85, attack := 20, defense := 10, level := 3,
                      experience := 40 },
          inventory := ["Health Potion"], logger := [] } true = .ok text ∧
      Game.loadGame
        { player := { name := "Nobody", health := 1, attack := 2, defense := 3, level := 7,
                      experience := 9 },
          inventory := [], logger := ["old line"] } (some text) 0 0 0 =
        .ok { player := { name := "Hero", health := 85, attack := 20, defense := 10, level := 1,
                          experience := 0 },
              inventory := [], logger := ["old line"] } :=
  save_load_round_trip
    { player := { name := "Hero", health := 85, attack := 20, defense := 10, level := 3,
                  experience := 40 },
      inventory := ["Health Potion"], logger := [] }
    { player := { name := "Nobody", health := 1, attack := 2, defense := 3, level := 7,
                  experience := 9 },
      inventory := [], logger := ["old line"] } 0 0 0
    (by decide) (by decide) (by decide) (by decide) (by decide)

/-- C12 (as stated, refuted): in the fight of the initial player against the
Goblin the number of log lines added is not the number of attacks made (three
lines for four player attacks and three monster attacks). -/
theorem goblin_fight_log_not_one_line_per_attack :
    ¬ ∃ fuel r, (Game.new "Hero" []).fight fuel Goblin = some r ∧
      r.game.logger.length =
        (Game.new "Hero" []).logger.length + (r.playerAttacks + r.monsterAttacks) := by
  rintro ⟨fuel, r, hr, hlen⟩
  obtain ⟨r0, hr0, hp, hm, hl⟩ := goblin_log_run
  have := fight_det fuel 4 _ _ r r0 hr hr0
  rw [this, hp, hm, hl] at hlen
  exact absurd hlen (by decide)

/-- C12 (amended): an attack with positive net damage `N` that does not throw
appends exactly the line `X attacks Y for N damage!` at the end of the log; an
attack with zero or negative net damage appends nothing. The log after a
round is the log before it followed by the lines of `roundLinesSpec`: the
player's line, then the monster's. The log after a fight is the log before
it followed by the lines of `fightLinesSpec`: those of each round played, in
the order of the rounds. -/
theorem attacks_append_damage_lines (c : Character) (m : Monster) (lg : List String) :
    (wrapInt (c.attack - m.defense) ≤ 0 → (c.attackEnemy m lg).logger = lg) ∧
    (0 < wrapInt (c.attack - m.defense) → (c.attackEnemy m lg).thrown = none →
      (c.attackEnemy m lg).logger =
        lg ++ [c.name ++ " attacks " ++ m.name ++ " for " ++
          toString (wrapInt (c.attack - m.defense)) ++ " damage!"]) ∧
    (wrapInt (m.attack - c.defense) ≤ 0 → (counterAttack c m lg).logger = lg) ∧
    (0 < wrapInt (m.attack - c.defense) → (counterAttack c m lg).thrown = none →
      (counterAttack c m lg).logger =
        lg ++ [m.name ++ " attacks " ++ c.name ++ " for " ++
          toString (wrapInt (m.attack - c.defense)) ++ " damage!"]) ∧
    (∀ b : Battle, (round b).1.logger = b.logger ++ roundLinesSpec b) ∧
    (∀ (fuel : Nat) (g : Game) (r : FightResult), g.fight fuel m = some r →
      r.game.logger = g.logger ++ fightLinesSpec fuel ⟨g.player, m, g.logger, 0, 0⟩) := by
  refine ⟨?_, ?_, ?_, ?_, round_logger, ?_⟩
  · intro h
    rw [attackEnemy_logger, if_neg (by intro hh; omega)]
  · intro h ht
    rw [attackEnemy_thrown] at ht
    rw [attackEnemy_logger, if_pos]
    · rfl
    · refine ⟨h, ?_⟩
      intro hneg
      rw [if_pos ⟨h, hneg⟩] at ht
      cases ht
  · intro h
    rw [counterAttack_logger, if_neg (by intro hh; omega)]
  · intro h ht
    rw [counterAttack_thrown] at ht
    rw [counterAttack_logger, if_pos]
    · rfl
    · refine ⟨h, ?_⟩
      intro hneg
      rw [if_pos ⟨h, hneg⟩] at ht
      cases ht
  · intro fuel g r hr
    rw [fight_eq] at hr
    rcases hl : fightLoop fuel
        { player := g.player, monster := m, logger := g.logger,
          playerAttacks := 0, monsterAttacks := 0 } with _ | x
    · rw [hl] at hr; cases hr
    · rw [hl] at hr
      have hlog := fightLoop_logger fuel _ x hl
      simp only [Option.map_some', Option.some.injEq] at hr
      subst hr
      exact hlog

/-- C12 (witness): the initial player's attack on the Goblin (net damage 15)
appends its line; the Goblin's counter-attack (net damage 0) appends nothing;
a round of the two appends the player's line only. -/
theorem attacks_append_damage_lines_witness :
    ((Character.new "Hero" 100 20 10).attackEnemy Goblin []).logger =
      [] ++ ["Hero" ++ " attacks " ++ "Goblin" ++ " for " ++ toString (wrapInt (20 - 5)) ++
        " damage!"] ∧
    (counterAttack (Character.new "Hero" 100 20 10) Goblin []).logger = [] ∧
    (round ⟨Character.new "Hero" 100 20 10, Goblin, [], 0, 0⟩).1.logger =
      [] ++ roundLinesSpec ⟨Character.new "Hero" 100 20 10, Goblin, [], 0, 0⟩ :=
  ⟨(attacks_append_damage_lines (Character.new "Hero" 100 20 10) Goblin []).2.1
      (by decide) (by decide),
   (attacks_append_damage_lines (Character.new "Hero" 100 20 10) Goblin []).2.2.1
      (by decide),
   (attacks_append_damage_lines (Character.new "Hero" 100 20 10) Goblin []).2.2.2.2.1 _⟩

/-- C13: in a round of the battle loop in which the player's attack brings the
monster's health below zero, `Monster::takeDamage` throws: the counter-attack
is not executed, the player is exactly as before the round, and the loop
returns at once with that exception, so no further round is played. -/
theorem killing_round_skips_counter_attack (b : Battle) (hb : b.ongoing = true)
    (hk : (b.player.attackEnemy b.monster b.logger).monster.health < 0) :
    (round b).2 = some (b.monster.name ++ " has been defeated!") ∧
    (round b).1.player = b.player ∧
    (round b).1.playerAttacks = b.playerAttacks + 1 ∧
    (round b).1.monsterAttacks = b.monsterAttacks ∧
    ∀ n, fightLoop (n + 1) b = some (round b) := by
  have hpos : b.monster.health > 0 := by
    simp only [Battle.ongoing, Bool.and_eq_true, decide_eq_true_eq] at hb
    exact hb.1
  rw [attackEnemy_monster] at hk
  have hd : wrapInt (b.player.attack - b.monster.defense) > 0 := by
    by_contra hnd
    rw [if_neg hnd] at hk
    omega
  rw [if_pos hd] at hk
  simp only at hk
  have ht := attackEnemy_thrown b.player b.monster b.logger
  rw [if_pos ⟨hd, hk⟩] at ht
  have hround : round b =
      ({ player := (b.player.attackEnemy b.monster b.logger).player,
         monster := (b.player.attackEnemy b.monster b.logger).monster,
         logger := (b.player.attackEnemy b.monster b.logger).logger,
         playerAttacks := b.playerAttacks + 1, monsterAttacks := b.monsterAttacks },
       some (b.monster.name ++ " has been defeated!")) := by
    simp only [round, ht]
  refine ⟨by rw [hround], by rw [hround]; exact attackEnemy_player _ _ _, by rw [hround],
    by rw [hround], ?_⟩
  intro n
  rw [fightLoop_succ n b hb, hround]

/-- C13 (witness): the Goblin at health 5 against the initial player. -/
theorem killing_round_skips_counter_attack_witness :
    (round ⟨Character.new "Hero" 100 20 10, Monster.new "Goblin" 5 10 5, [], 3, 3⟩).1.player =
      Character.new "Hero" 100 20 10 ∧
    (round ⟨Character.new "Hero" 100 20 10, Monster.new "Goblin" 5 10 5, [], 3, 3⟩).1.monsterAttacks
      = 3 := by
  have h := killing_round_skips_counter_attack
    ⟨Character.new "Hero" 100 20 10, Monster.new "Goblin" 5 10 5, [], 3, 3⟩
    (by decide) (by decide)
  exact ⟨h.2.1, h.2.2.2.1⟩

/-- C14 (as stated, refuted): the round of the player at health 20 against the
Dragon at health 130 ends without an exception with monster health 125 and
player health 0, both non-negative, and the loop condition is false. -/
theorem round_to_zero_health_ends_loop :
    ¬ ∀ b : Battle, b.ongoing = true → (round b).2 = none →
      0 ≤ (round b).1.monster.health → 0 ≤ (round b).1.player.health →
      (round b).1.ongoing = true := by
  intro h
  have := h ⟨Character.new "Hero" 20 20 10, Monster.new "Dragon" 130 30 15, [], 4, 4⟩
    (by decide)
    (by simp [round, Character.attackEnemy, Monster.takeDamage, counterAttack,
      Character.takeDamage, Character.new, Monster.new, wrapInt])
    (by simp [round, Character.attackEnemy, Monster.takeDamage, counterAttack,
      Character.takeDamage, Character.new, Monster.new, wrapInt])
    (by simp [round, Character.attackEnemy, Monster.takeDamage, counterAttack,
      Character.takeDamage, Character.new, Monster.new, wrapInt])
  revert this
  simp [round, Character.attackEnemy, Monster.takeDamage, counterAttack,
    Character.takeDamage, Character.new, Monster.new, wrapInt, Battle.ongoing]

/-- C14 (amended): at the loop test after a round, when the monster's health
and the player's health are both above zero the battle goes on (the loop has
not ended and its next step is another round); when either health is zero or
below the loop ends there, with no further round. -/
theorem battle_goes_on_iff_both_positive (b : Battle) :
    (b.monster.health > 0 → b.player.health > 0 →
      b.ongoing = true ∧ fightLoop 0 b = none ∧
      ∀ n, fightLoop (n + 1) b =
        match round b with
        | (b1, some msg) => some (b1, some msg)
        | (b1, none) => fightLoop n b1) ∧
    ((b.monster.health ≤ 0 ∨ b.player.health ≤ 0) →
      b.ongoing = false ∧ ∀ n, fightLoop n b = some (b, none)) := by
  constructor
  · intro hm hp
    have hb : b.ongoing = true := by simp [Battle.ongoing, hm, hp]
    exact ⟨hb, fightLoop_zero b hb, fun n => fightLoop_succ n b hb⟩
  · intro h
    have hb : b.ongoing = false := by
      simp only [Battle.ongoing, Bool.and_eq_false_iff, decide_eq_false_iff_not]
      omega
    exact ⟨hb, fun n => fightLoop_stop n b hb⟩

/-- C14 (witness): both healths positive after the first round against the
Skeleton (58 and 95); player health 0 against the Dragon. -/
theorem battle_goes_on_iff_both_positive_witness :
    Battle.ongoing ⟨Character.new "Hero" 95 20 10, Monster.new "Skeleton" 58 15 8, [], 1, 1⟩
      = true ∧
    Battle.ongoing ⟨Character.new "Hero" 0 20 10, Monster.new "Dragon" 125 30 15, [], 5, 5⟩
      = false :=
  ⟨((battle_goes_on_iff_both_positive
      ⟨Character.new "Hero" 95 20 10, Monster.new "Skeleton" 58 15 8, [], 1, 1⟩).1
      (by decide) (by decide)).1,
   ((battle_goes_on_iff_both_positive
      ⟨Character.new "Hero" 0 20 10, Monster.new "Dragon" 125 30 15, [], 5, 5⟩).2
      (Or.inr (by decide))).1⟩

/-- C15: the three presets carry the values of the table (Goblin 50/10/5,
Skeleton 70/15/8, Dragon 150/30/15), and a `Character` constructed by the
`Game` constructor or by `Game::loadGame` (on any file that opens, whatever
its content) has level 1 and experience 0. -/
theorem presets_and_new_character (n : String) (lg : List String) (g : Game) (text : String)
    (hp0 atk0 def0 : Int) :
    (Goblin.health = 50 ∧ Goblin.attack = 10 ∧ Goblin.defense = 5) ∧
    (Skeleton.health = 70 ∧ Skeleton.attack = 15 ∧ Skeleton.defense = 8) ∧
    (Dragon.health = 150 ∧ Dragon.attack = 30 ∧ Dragon.defense = 15) ∧
    ((Game.new n lg).player.level = 1 ∧ (Game.new n lg).player.experience = 0) ∧
    ∃ g1, g.loadGame (some text) hp0 atk0 def0 = .ok g1 ∧
      g1.player.level = 1 ∧ g1.player.experience = 0 :=
  ⟨⟨rfl, rfl, rfl⟩, ⟨rfl, rfl, rfl⟩, ⟨rfl, rfl, rfl⟩, ⟨rfl, rfl⟩, ⟨_, rfl, rfl, rfl⟩⟩

/-- C16: whenever the battle loop ends, with or without an exception of
`takeDamage`, `Game::fight` returns normally: the exception is the one caught
at line 185, and the game keeps the player with the health the loop left
(possibly negative), exactly as the loop left it when an exception was thrown,
together with the inventory and the log. -/
theorem fight_catches_defeat_signal (fuel : Nat) (g : Game) (m : Monster)
    (x : Battle × Option String)
    (hx : fightLoop fuel ⟨g.player, m, g.logger, 0, 0⟩ = some x) :
    ∃ r, g.fight fuel m = some r ∧ r.caught = x.2 ∧
      r.game.player.health = x.1.player.health ∧
      (∀ msg, x.2 = some msg → r.game.player = x.1.player) ∧
      r.game.inventory = g.inventory ∧ r.game.logger = x.1.logger ∧
      r.monster = x.1.monster := by
  rw [fight_eq, hx]
  refine ⟨_, rfl, rfl, ?_, ?_, rfl, rfl, rfl⟩
  · simp only
    split_ifs
    · rfl
    · exact (gainExperience_frame x.1.player 50).2.1
  · intro msg hmsg
    simp only [hmsg, Option.isSome_some, if_true]

/-- C16 (witness): the first encounter of `main`; the Goblin's defeat is
caught and the fight returns with the player at health 100. -/
theorem fight_catches_defeat_signal_witness :
    ∃ r, (Game.new "Hero" []).fight 4 Goblin = some r ∧
      r.caught = some "Goblin has been defeated!" ∧ r.game.player.health = 100 := by
  obtain ⟨x, hx, hmsg, hh⟩ := goblin_loop_run
  obtain ⟨r, hr, hc, hp, -⟩ := fight_catches_defeat_signal 4 (Game.new "Hero" []) Goblin x hx
  exact ⟨r, hr, hc.trans hmsg, hp.trans hh⟩

/-- C17 (as stated, refuted): the initial player against a monster with health
50, attack -2147483648 and defense 20. Both healths are above zero, the
player's attack is at most the monster's defense and the monster's attack at
most the player's defense, but the damage `-2147483648 - 10` of line 171 is no
`int` value: it comes out as 2147483638, the player dies in the first round
and the fight ends. -/
theorem overflowing_counter_attack_ends_fight :
    ((Monster.new "Wraith" 50 (-2147483648) 20).health > 0 ∧
      (Game.new "Hero" []).player.health > 0 ∧
      (Game.new "Hero" []).player.attack ≤ (Monster.new "Wraith" 50 (-2147483648) 20).defense ∧
      (Monster.new "Wraith" 50 (-2147483648) 20).attack ≤ (Game.new "Hero" []).player.defense) ∧
    ∃ r, (Game.new "Hero" []).fight 1 (Monster.new "Wraith" 50 (-2147483648) 20) = some r ∧
      r.caught = some "Hero has died!" ∧ r.game.player.health = -2147483538 := by
  refine ⟨by decide, ?_⟩
  simp [Game.fight, fightLoop, round, Character.attackEnemy, Monster.takeDamage, counterAttack,
    Character.takeDamage, wrapInt, Game.new, Character.new, Monster.new, Battle.ongoing]

/-- C17 (amended): with both healths above zero and both net damages, as the
code computes them (the `int` differences of attack and defense), at most
zero, one round leaves player, monster and log unchanged and the loop
condition true; no amount of fuel ends the loop, and `Game::fight` never
returns. -/
theorem stalemate_never_ends (b : Battle) (hm : b.monster.health > 0)
    (hp : b.player.health > 0)
    (h1 : wrapInt (b.player.attack - b.monster.defense) ≤ 0)
    (h2 : wrapInt (b.monster.attack - b.player.defense) ≤ 0) :
    (round b).2 = none ∧ (round b).1.player = b.player ∧ (round b).1.monster = b.monster ∧
    (round b).1.logger = b.logger ∧ (round b).1.ongoing = true ∧
    (∀ fuel, fightLoop fuel b = none) ∧
    ∀ fuel inv, Game.fight fuel { player := b.player, inventory := inv, logger := b.logger }
      b.monster = none := by
  have hr := round_stalemate b hm h1 h2
  refine ⟨by rw [hr], by rw [hr], by rw [hr], by rw [hr], ?_, ?_, ?_⟩
  · rw [hr]
    simp [Battle.ongoing, hm, hp]
  · intro fuel
    exact fightLoop_stalemate fuel b hm hp h1 h2
  · intro fuel inv
    rw [fight_eq, fightLoop_stalemate fuel ⟨b.player, b.monster, b.logger, 0, 0⟩ hm hp h1 h2]
    rfl

/-- C17 (witness): the initial player against a monster with attack 10 and
defense 20 (net damages `20 - 20 = 0` and `10 - 10 = 0`). -/
theorem stalemate_never_ends_witness :
    Game.fight 1000
      { player := Character.new "Hero" 100 20 10, inventory := [], logger := [] }
      (Monster.new "Golem" 50 10 20) = none :=
  (stalemate_never_ends ⟨Character.new "Hero" 100 20 10, Monster.new "Golem" 50 10 20, [], 0, 0⟩
    (by decide) (by decide) (by decide) (by decide)).2.2.2.2.2.2 1000 []

/-- C18 (as stated, refuted): a new player after `gainExperience 50` has level 1
and experience 50; a further `gainExperience 2147483647` makes the sum of line
49 no `int` value: level stays 1, experience becomes -2147483599, and the
progression total is not the old total plus the amount. -/
theorem gainExperience_int_max_loses_progression :
    (((Character.new "Hero" 100 20 10).gainExperience 50).gainExperience 2147483647).level = 1 ∧
    (((Character.new "Hero" 100 20 10).gainExperience 50).gainExperience
      2147483647).experience = -2147483599 ∧
    100 * (((Character.new "Hero" 100 20 10).gainExperience 50).gainExperience
        2147483647).level +
      (((Character.new "Hero" 100 20 10).gainExperience 50).gainExperience
        2147483647).experience ≠
      100 * ((Character.new "Hero" 100 20 10).gainExperience 50).level +
        ((Character.new "Hero" 100 20 10).gainExperience 50).experience + 2147483647 := by
  simp [Character.gainExperience, Character.new, wrapInt]

/-- C18 (amended): `gainExperience` leaves health, attack, defense and name
alone for every amount. When `experience + amount` and `level + 1` are `int`
values (no overflow), it conserves the progression total
`100 * level + experience` up to the amount gained, never lowers the level and
raises it by at most 1. -/
theorem gainExperience_conserves_progression (c : Character) (a : Int) :
    ((c.gainExperience a).health = c.health ∧ (c.gainExperience a).attack = c.attack ∧
      (c.gainExperience a).defense = c.defense ∧ (c.gainExperience a).name = c.name) ∧
    (inIntRange (c.experience + a) → inIntRange (c.level + 1) →
      100 * (c.gainExperience a).level + (c.gainExperience a).experience =
        100 * c.level + c.experience + a ∧
      c.level ≤ (c.gainExperience a).level ∧ (c.gainExperience a).level ≤ c.level + 1) := by
  have hf := gainExperience_frame c a
  refine ⟨⟨hf.2.1, hf.2.2.1, hf.2.2.2, hf.1⟩, ?_⟩
  intro he hl
  rw [gainExperience_in_range c a he hl]
  split_ifs
  · refine ⟨?_, ?_, ?_⟩ <;> simp only <;> omega
  · refine ⟨?_, ?_, ?_⟩ <;> simp only <;> omega

/-- C18 (witness): level 1, experience 80, amount 50: the total goes from 180
to 230. -/
theorem gainExperience_conserves_progression_witness :
    100 * (Character.gainExperience
        { name := "Hero", health := 100, attack := 20, defense := 10, level := 1,
          experience := 80 } 50).level +
      (Character.gainExperience
        { name := "Hero", health := 100, attack := 20, defense := 10, level := 1,
          experience := 80 } 50).experience = 100 * 1 + 80 + 50 :=
  ((gainExperience_conserves_progression
    { name := "Hero", health := 100, attack := 20, defense := 10, level := 1,
      experience := 80 } 50).2 (by decide) (by decide)).1

/-- C20: for every fight that returns, the final health of the player and of
the monster is at most the initial one, and name, attack and defense of both
are the same as before the fight. -/
theorem fight_only_lowers_health (fuel : Nat) (g : Game) (m : Monster) (r : FightResult)
    (hr : g.fight fuel m = some r) :
    r.game.player.health ≤ g.player.health ∧ r.monster.health ≤ m.health ∧
    r.game.player.name = g.player.name ∧ r.game.player.attack = g.player.attack ∧
    r.game.player.defense = g.player.defense ∧
    r.monster.name = m.name ∧ r.monster.attack = m.attack ∧ r.monster.defense = m.defense := by
  rw [fight_eq] at hr
  rcases hl : fightLoop fuel
      { player := g.player, monster := m, logger := g.logger,
        playerAttacks := 0, monsterAttacks := 0 } with _ | x
  · rw [hl] at hr; cases hr
  · rw [hl] at hr
    obtain ⟨a1, a2, a3, a4, a5, -, -, a8, a9, a10⟩ := fightLoop_frame fuel _ x hl
    simp only [Option.map_some', Option.some.injEq] at hr
    subst hr
    have hg := gainExperience_frame x.1.player 50
    simp only at a1 a2 a3 a4 a5 a8 a9 a10 ⊢
    refine ⟨?_, a2, ?_, ?_, ?_, a8, a9, a10⟩
    · split_ifs
      · exact a1
      · rw [hg.2.1]; exact a1
    · split_ifs
      · exact a3
      · rw [hg.1]; exact a3
    · split_ifs
      · exact a4
      · rw [hg.2.2.1]; exact a4
    · split_ifs
      · exact a5
      · rw [hg.2.2.2]; exact a5

/-- C20 (witness): the player at health 75 against the Dragon ends at health
-5 with the Dragon at 130. -/
theorem fight_only_lowers_health_witness :
    ∃ r, Game.fight 4 { player := Character.new "Hero" 75 20 10, inventory := [], logger := [] }
        Dragon = some r ∧
      r.game.player.health ≤ 75 ∧ r.monster.health ≤ 150 ∧ r.game.player.attack = 20 ∧
      r.monster.defense = 15 := by
  obtain ⟨r, hr, -⟩ := wounded_dragon_run
  have h := fight_only_lowers_health 4
    { player := Character.new "Hero" 75 20 10, inventory := [], logger := [] } Dragon r hr
  exact ⟨r, hr, h.1, h.2.1, h.2.2.2.1, h.2.2.2.2.2.2.2⟩

end Lab9
